import Mathlib

/-!
# coffeemakerSimulator: hardware model and brew cycle

A shallow embedding of `hardwareAPIImpl/hardwareAPIlmpl.go`.

* The struct `HardwareAPIImpl` becomes a Lean structure with the same fields
  (the mutex is represented by the atomicity of `isBrewingInProgress` and
  `setBrewingInProgress`).
* `time.Ticker` values live in a heap (`List Ticker`); a handle is an index.
  A ticker has a one-slot channel, so a ticker is "stopped or not" plus
  "a tick is buffered or not".
* Every goroutine started by `SetBoilerState(BOILER_ON)` is a `Task`: a
  program counter over the statements of the anonymous function (lines
  92-118) and its loop variable `i`.  One step of a task executes one
  statement, so every interleaving of the foreground caller with the
  goroutines at statement granularity is a schedule (`List Event`).
-/

namespace CoffeeMaker

/-! ## Enumerations of package `hardwareAPI` -/

/-- Modelled from the spec: the type `hardwareAPI.BoilerState` (package
`hardwareAPI` is imported by the source but is not part of it); the spec's data
model gives it the two values ON and OFF. -/
inductive BoilerState where
  | BOILER_ON
  | BOILER_OFF
  deriving DecidableEq

/-- Modelled from the spec: the type `hardwareAPI.BoilerStatus`, the water
sensor reading, with values EMPTY and NOT_EMPTY. -/
inductive BoilerStatus where
  | BOILER_EMPTY
  | BOILER_NOT_EMPTY
  deriving DecidableEq

/-- Modelled from the spec: the type `hardwareAPI.BrewButtonStatus`, with
values PUSHED and NOT_PUSHED. -/
inductive BrewButtonStatus where
  | BREW_BUTTON_PUSHED
  | BREW_BUTTON_NOT_PUSHED
  deriving DecidableEq

/-- Modelled from the spec: the type `hardwareAPI.WarmerPlateState`, with
values ON and OFF. -/
inductive WarmerPlateState where
  | WARMER_ON
  | WARMER_OFF
  deriving DecidableEq

/-- Modelled from the spec: the type `hardwareAPI.WarmerStatus`, with values
EMPTY (no pot), POT_EMPTY and POT_NOT_EMPTY. -/
inductive WarmerStatus where
  | WARMER_EMPTY
  | POT_EMPTY
  | POT_NOT_EMPTY
  deriving DecidableEq

/-- Modelled from the spec: the type `hardwareAPI.ReliefValveState`, with
values OPEN and CLOSED. -/
inductive ReliefValveState where
  | VALVE_OPEN
  | VALVE_CLOSED
  deriving DecidableEq

/-- Modelled from the spec: the type `hardwareAPI.IndicatorState`, with values
ON and OFF. -/
inductive IndicatorState where
  | INDICATOR_ON
  | INDICATOR_OFF
  deriving DecidableEq

open BoilerState BoilerStatus BrewButtonStatus WarmerPlateState WarmerStatus
  ReliefValveState IndicatorState

/-! ## The hardware record -/

/-- The struct `HardwareAPIImpl` (lines 27-48).  `brewingTicker` is a pointer:
`none` is `nil`, `some t` points to ticker `t` of the heap. -/
structure HardwareAPIImpl where
  brewingInProgress : Bool
  brewingTicker : Option Nat
  boilerState : BoilerState
  boilerStatus : BoilerStatus
  brewButtonStatus : BrewButtonStatus
  warmerPlateState : WarmerPlateState
  warmerStatus : WarmerStatus
  reliefValveState : ReliefValveState
  indicatorState : IndicatorState
  deriving DecidableEq

/-- Lines 214-218. -/
def isBrewingInProgress (h : HardwareAPIImpl) : Bool :=
  h.brewingInProgress

/-- Lines 222-226. -/
def setBrewingInProgress (h : HardwareAPIImpl) (s : Bool) : HardwareAPIImpl :=
  { h with brewingInProgress := s }

/-- Lines 71-73. -/
def GetBoilerStatus (h : HardwareAPIImpl) : BoilerStatus :=
  h.boilerStatus

/-- Lines 76-80: the value read, and the record with the latch cleared. -/
def GetBrewButtonStatus (h : HardwareAPIImpl) : BrewButtonStatus × HardwareAPIImpl :=
  let currentState := h.brewButtonStatus
  (currentState, { h with brewButtonStatus := BREW_BUTTON_NOT_PUSHED })

/-- Lines 83-85. -/
def GetWarmerPlateStatus (h : HardwareAPIImpl) : WarmerStatus :=
  h.warmerStatus

/-- Lines 127-129. -/
def SetIndicatorState (h : HardwareAPIImpl) (indicatorState : IndicatorState) :
    HardwareAPIImpl :=
  { h with indicatorState := indicatorState }

/-- Lines 132-134. -/
def SetReliefValveState (h : HardwareAPIImpl) (reliefValveState : ReliefValveState) :
    HardwareAPIImpl :=
  { h with reliefValveState := reliefValveState }

/-- Lines 137-139. -/
def SetWarmerPlateState (h : HardwareAPIImpl) (warmerPlateState : WarmerPlateState) :
    HardwareAPIImpl :=
  { h with warmerPlateState := warmerPlateState }

/-- Lines 142-144. -/
def FillWater (h : HardwareAPIImpl) : HardwareAPIImpl :=
  { h with boilerStatus := BOILER_NOT_EMPTY }

/-- Lines 147-154 (the log line has no effect on the record). -/
def PressBrewButton (h : HardwareAPIImpl) : HardwareAPIImpl :=
  if isBrewingInProgress h then h
  else { h with brewButtonStatus := BREW_BUTTON_PUSHED }

/-- Lines 157-159. -/
def PutPot (h : HardwareAPIImpl) : HardwareAPIImpl :=
  { h with warmerStatus := POT_EMPTY }

/-- Lines 162-164. -/
def RemovePot (h : HardwareAPIImpl) : HardwareAPIImpl :=
  { h with warmerStatus := WARMER_EMPTY }

/-- Lines 167-211: only reads fields and prints; the record is unchanged. -/
def ShowState (h : HardwareAPIImpl) : HardwareAPIImpl :=
  h

/-! ## Tickers -/

/-- A `time.Ticker`: `stopped` after `Stop()`, `pending` when a tick waits in
its channel `C` (capacity one). -/
structure Ticker where
  stopped : Bool
  pending : Bool
  deriving DecidableEq

/-- The ticker returned by `time.NewTicker`. -/
def newTickerValue : Ticker :=
  { stopped := false, pending := false }

/-- `Stop()` on the ticker with handle `t`: no more ticks are sent; the channel
is not closed and a buffered tick stays. -/
def stopTickerAt (tickers : List Ticker) (t : Nat) : List Ticker :=
  match tickers[t]? with
  | some k => tickers.set t { k with stopped := true }
  | none => tickers

/-! ## Goroutines of the brew cycle -/

/-- Program points of the goroutine body, lines 92-118. -/
inductive Pc where
  /-- Line 93, `if h.isBrewingInProgress() { return }`. -/
  | guard
  /-- Line 97, `h.setBrewingInProgress(true)`. -/
  | setFlag
  /-- Line 99, `h.brewingTicker = time.NewTicker(...)`, and `i := 0`. -/
  | newTicker
  /-- Line 100, the loop condition `i < 5 && h.isBrewingInProgress()`. -/
  | loopCond
  /-- Line 102, evaluation of `h.brewingTicker.C` on entering the select. -/
  | selectEval
  /-- Line 102, blocked on the channel of ticker `t`. -/
  | recv (t : Nat)
  /-- Lines 105-107 and the loop's `i++`. -/
  | valveCheck
  /-- Line 110, `if h.isBrewingInProgress()`. -/
  | postCheck
  /-- Line 111, `h.warmerStatus = POT_NOT_EMPTY`. -/
  | writeWarmer
  /-- Line 112, `h.boilerStatus = BOILER_EMPTY`. -/
  | writeBoiler
  /-- Line 115, `h.setBrewingInProgress(false)`. -/
  | clearFlag
  /-- Line 116, `h.brewingTicker.Stop()`. -/
  | stopTicker
  /-- Line 117, `h.brewingTicker = nil`. -/
  | nilTicker
  /-- The function has returned. -/
  | done
  /-- A nil pointer was dereferenced. -/
  | panicked
  deriving DecidableEq

/-- One goroutine: its program point and loop variable.  `warmerWrites` and
`boilerWrites` are history counters (not in the source): how often this
goroutine executed line 111 and line 112. -/
structure Task where
  pc : Pc
  i : Nat
  warmerWrites : Nat
  boilerWrites : Nat
  deriving DecidableEq

/-- A goroutine that has just been started by `go func()`. -/
def newTask : Task :=
  { pc := Pc.guard, i := 0, warmerWrites := 0, boilerWrites := 0 }

/-- One statement of the goroutine body, on the shared record, the ticker heap
and the goroutine itself; `none` when the goroutine cannot move (returned,
crashed, or blocked on a channel with no tick). -/
def stepLocal (h : HardwareAPIImpl) (tickers : List Ticker) (t : Task) :
    Option (HardwareAPIImpl × List Ticker × Task) :=
  match t.pc with
  | Pc.guard =>
      if isBrewingInProgress h then some (h, tickers, { t with pc := Pc.done })
      else some (h, tickers, { t with pc := Pc.setFlag })
  | Pc.setFlag =>
      some (setBrewingInProgress h true, tickers, { t with pc := Pc.newTicker })
  | Pc.newTicker =>
      some ({ h with brewingTicker := some tickers.length }, tickers ++ [newTickerValue],
        { t with pc := Pc.loopCond, i := 0 })
  | Pc.loopCond =>
      if t.i < 5 && isBrewingInProgress h then some (h, tickers, { t with pc := Pc.selectEval })
      else some (h, tickers, { t with pc := Pc.postCheck })
  | Pc.selectEval =>
      match h.brewingTicker with
      | some k => some (h, tickers, { t with pc := Pc.recv k })
      | none => some (h, tickers, { t with pc := Pc.panicked })
  | Pc.recv k =>
      match tickers[k]? with
      | some tk =>
          if tk.pending then
            some (h, tickers.set k { tk with pending := false }, { t with pc := Pc.valveCheck })
          else none
      | none => none
  | Pc.valveCheck =>
      let i := if h.reliefValveState = VALVE_OPEN then 0 else t.i
      some (h, tickers, { t with pc := Pc.loopCond, i := i + 1 })
  | Pc.postCheck =>
      if isBrewingInProgress h then some (h, tickers, { t with pc := Pc.writeWarmer })
      else some (h, tickers, { t with pc := Pc.clearFlag })
  | Pc.writeWarmer =>
      some ({ h with warmerStatus := POT_NOT_EMPTY }, tickers,
        { t with pc := Pc.writeBoiler, warmerWrites := t.warmerWrites + 1 })
  | Pc.writeBoiler =>
      some ({ h with boilerStatus := BOILER_EMPTY }, tickers,
        { t with pc := Pc.clearFlag, boilerWrites := t.boilerWrites + 1 })
  | Pc.clearFlag =>
      some (setBrewingInProgress h false, tickers, { t with pc := Pc.stopTicker })
  | Pc.stopTicker =>
      match h.brewingTicker with
      | some k => some (h, stopTickerAt tickers k, { t with pc := Pc.nilTicker })
      | none => some (h, tickers, { t with pc := Pc.panicked })
  | Pc.nilTicker =>
      some ({ h with brewingTicker := none }, tickers, { t with pc := Pc.done })
  | Pc.done => none
  | Pc.panicked => none

/-! ## The whole system -/

/-- The shared record, the ticker heap and all goroutines started so far (a
goroutine's identifier is its index). -/
structure Sys where
  hw : HardwareAPIImpl
  tickers : List Ticker
  tasks : List Task
  deriving DecidableEq

/-- A panic in any goroutine ends the process. -/
def Sys.crashed (s : Sys) : Bool :=
  s.tasks.any fun t => decide (t.pc = Pc.panicked)

/-- Goroutine `tid` executes one statement. -/
def stepTask (s : Sys) (tid : Nat) : Option Sys :=
  if s.crashed then none
  else
    match s.tasks[tid]? with
    | none => none
    | some t =>
        match stepLocal s.hw s.tickers t with
        | none => none
        | some (h, tk, t') => some { hw := h, tickers := tk, tasks := s.tasks.set tid t' }

/-- The runtime sends a tick on the channel of ticker `t` (a second tick while
one is buffered is dropped); a stopped ticker sends nothing. -/
def fire (s : Sys) (t : Nat) : Option Sys :=
  if s.crashed then none
  else
    match s.tickers[t]? with
    | some tk =>
        if tk.stopped then none
        else some { s with tickers := s.tickers.set t { tk with pending := true } }
    | none => none

/-- Lines 51-68. -/
def Reset (s : Sys) : Sys :=
  let h1 := setBrewingInProgress s.hw false
  let tickers := match h1.brewingTicker with
    | some t => stopTickerAt s.tickers t
    | none => s.tickers
  { s with
    hw :=
      { brewingInProgress := h1.brewingInProgress
        brewingTicker := none
        boilerState := BOILER_OFF
        boilerStatus := BOILER_EMPTY
        brewButtonStatus := BREW_BUTTON_NOT_PUSHED
        warmerPlateState := WARMER_OFF
        warmerStatus := WARMER_EMPTY
        reliefValveState := VALVE_CLOSED
        indicatorState := INDICATOR_OFF }
    tickers := tickers }

/-- Lines 88-124: the foreground part records the state and either starts a
goroutine (whose body is `stepLocal`) or clears the flag. -/
def SetBoilerState (s : Sys) (boilerState : BoilerState) : Sys :=
  let h := { s.hw with boilerState := boilerState }
  if h.boilerState = BOILER_ON then
    { s with hw := h, tasks := s.tasks ++ [newTask] }
  else if h.brewingInProgress then
    { s with hw := setBrewingInProgress h false }
  else
    { s with hw := h }

/-! ## Foreground commands, schedules -/

/-- The methods of the two interfaces, as commands of the foreground caller. -/
inductive Command where
  | Reset
  | GetBoilerStatus
  | GetBrewButtonStatus
  | GetWarmerPlateStatus
  | SetBoilerState (boilerState : BoilerState)
  | SetIndicatorState (indicatorState : IndicatorState)
  | SetReliefValveState (reliefValveState : ReliefValveState)
  | SetWarmerPlateState (warmerPlateState : WarmerPlateState)
  | FillWater
  | PressBrewButton
  | PutPot
  | RemovePot
  | ShowState
  deriving DecidableEq

/-- The effect of a command on the system (return values are dropped). -/
def applyCmd (s : Sys) : Command → Sys
  | Command.Reset => Reset s
  | Command.GetBoilerStatus => s
  | Command.GetBrewButtonStatus => { s with hw := (GetBrewButtonStatus s.hw).2 }
  | Command.GetWarmerPlateStatus => s
  | Command.SetBoilerState b => SetBoilerState s b
  | Command.SetIndicatorState x => { s with hw := SetIndicatorState s.hw x }
  | Command.SetReliefValveState v => { s with hw := SetReliefValveState s.hw v }
  | Command.SetWarmerPlateState w => { s with hw := SetWarmerPlateState s.hw w }
  | Command.FillWater => { s with hw := FillWater s.hw }
  | Command.PressBrewButton => { s with hw := PressBrewButton s.hw }
  | Command.PutPot => { s with hw := PutPot s.hw }
  | Command.RemovePot => { s with hw := RemovePot s.hw }
  | Command.ShowState => { s with hw := ShowState s.hw }

/-- What can happen next: the foreground caller runs a command, a goroutine
executes a statement, or a ticker sends a tick. -/
inductive Event where
  | call (c : Command)
  | step (tid : Nat)
  | tick (t : Nat)
  deriving DecidableEq

/-- One event; `none` when it cannot happen in `s`. -/
def execEvent (s : Sys) : Event → Option Sys
  | Event.call c => if s.crashed then none else some (applyCmd s c)
  | Event.step tid => stepTask s tid
  | Event.tick t => fire s t

/-- A schedule, event by event. -/
def exec (s : Sys) : List Event → Option Sys
  | [] => some s
  | e :: es =>
      match execEvent s e with
      | none => none
      | some s' => exec s' es

/-- The record as `main` creates it (line 10); `Reset` overwrites every field,
so the values chosen here for the zero values do not matter. -/
def zeroHardware : HardwareAPIImpl :=
  { brewingInProgress := false
    brewingTicker := none
    boilerState := BOILER_ON
    boilerStatus := BOILER_EMPTY
    brewButtonStatus := BREW_BUTTON_PUSHED
    warmerPlateState := WARMER_ON
    warmerStatus := WARMER_EMPTY
    reliefValveState := VALVE_OPEN
    indicatorState := INDICATOR_ON }

/-- The system after `main` has called `Reset` (line 12): no ticker, no
goroutine. -/
def powerOn : Sys :=
  Reset { hw := zeroHardware, tickers := [], tasks := [] }

/-- States the system can be in after some schedule from power-on. -/
def Reachable (s : Sys) : Prop :=
  ∃ es : List Event, exec powerOn es = some s

/-! ## Running one goroutine up to its suspension point -/

/-- Goroutine `tid` executes statements until it cannot move, at most `n`. -/
def runTask : Nat → Sys → Nat → Sys
  | 0, s, _ => s
  | n + 1, s, tid =>
      match stepTask s tid with
      | none => s
      | some s' => runTask n s' tid

/-- Goroutine `tid` runs until it blocks in the select, returns or crashes; 16
statements are enough in every state (`settle_quiescent`). -/
def settle (s : Sys) (tid : Nat) : Sys :=
  runTask 16 s tid

/-- One timer tick for goroutine `tid`: it is blocked in the select, its ticker
sends a tick, and the goroutine runs up to its next suspension point. -/
def tickTask (s : Sys) (tid : Nat) : Option Sys :=
  match s.tasks[tid]? with
  | some t =>
      match t.pc with
      | Pc.recv k =>
          match fire s k with
          | some s' => some (settle s' tid)
          | none => none
      | _ => none
  | none => none

/-- `n` timer ticks for goroutine `tid`, with no command in between. -/
def ticks : Nat → Sys → Nat → Option Sys
  | 0, s, _ => some s
  | n + 1, s, tid =>
      match tickTask s tid with
      | some s' => ticks n s' tid
      | none => none

/-- The goroutine is between loop entry and the end of its cleanup. -/
def Pc.inCycle : Pc → Bool
  | Pc.guard => false
  | Pc.setFlag => false
  | Pc.newTicker => false
  | Pc.done => false
  | Pc.panicked => false
  | _ => true

/-- Number of goroutines that are inside a brew cycle. -/
def activeCycles (s : Sys) : Nat :=
  (s.tasks.filter fun t => t.pc.inCycle).length

/-- No goroutine is alive and the flag is clear. -/
def Idle (s : Sys) : Prop :=
  s.hw.brewingInProgress = false ∧ ∀ t ∈ s.tasks, t.pc = Pc.done

/-! ## Auxiliary definitions for the proofs -/

/-- The goroutine body run on its own: statements until it cannot move, at
most `n`. -/
def runLocal : Nat → HardwareAPIImpl × List Ticker × Task →
    HardwareAPIImpl × List Ticker × Task
  | 0, c => c
  | n + 1, c =>
      match stepLocal c.1 c.2.1 c.2.2 with
      | none => c
      | some c' => runLocal n c'

/-- No goroutine other than `tid` has crashed. -/
def OthersFine (s : Sys) (tid : Nat) : Prop :=
  ∀ j t, j ≠ tid → s.tasks[j]? = some t → t.pc ≠ Pc.panicked

/-- Goroutine `tid` is blocked in the select of a cycle it owns: it waits on
ticker `k`, which is the record's ticker, is running and has no buffered tick;
its loop variable is `i` and its history counters are `w` and `b`. -/
structure Waiting (u : Sys) (tid k i w b : Nat) : Prop where
  task : u.tasks[tid]? = some { pc := Pc.recv k, i := i, warmerWrites := w, boilerWrites := b }
  others : OthersFine u tid
  ticker : u.tickers[k]? = some { stopped := false, pending := false }
  handle : u.hw.brewingTicker = some k

/-- The loop variable after the statements of one iteration. -/
def nextI (u : Sys) (i : Nat) : Nat :=
  (if u.hw.reliefValveState = VALVE_OPEN then 0 else i) + 1

/-- Closed form of the state after one tick of a waiting goroutine (proved equal
to `tickTask` in `tickTask_waiting`). -/
def afterTick (u : Sys) (tid k i w b : Nat) : Sys :=
  if nextI u i < 5 ∧ u.hw.brewingInProgress = true then
    { hw := u.hw
      tickers := u.tickers
      tasks := u.tasks.set tid
        { pc := Pc.recv k, i := nextI u i, warmerWrites := w, boilerWrites := b } }
  else if u.hw.brewingInProgress = true then
    { hw := { u.hw with warmerStatus := POT_NOT_EMPTY, boilerStatus := BOILER_EMPTY,
                        brewingInProgress := false, brewingTicker := none }
      tickers := stopTickerAt u.tickers k
      tasks := u.tasks.set tid
        { pc := Pc.done, i := nextI u i, warmerWrites := w + 1, boilerWrites := b + 1 } }
  else
    { hw := { u.hw with brewingInProgress := false, brewingTicker := none }
      tickers := stopTickerAt u.tickers k
      tasks := u.tasks.set tid
        { pc := Pc.done, i := nextI u i, warmerWrites := w, boilerWrites := b } }

/-- Commands of the foreground caller, one after the other. -/
def runCmds (s : Sys) (cs : List Command) : Sys :=
  cs.foldl applyCmd s

/-- One tick for goroutine `tid` with the relief valve in state `v`: the
foreground caller sets the valve, then the tick happens. -/
def tickWithValve (s : Sys) (tid : Nat) (v : ReliefValveState) : Option Sys :=
  tickTask (applyCmd s (Command.SetReliefValveState v)) tid

/-- Ticks for goroutine `tid` along a trace of valve states, one per tick. -/
def runValves (s : Sys) (tid : Nat) : List ReliefValveState → Option Sys
  | [] => some s
  | v :: vs =>
      match tickWithValve s tid v with
      | some s' => runValves s' tid vs
      | none => none

/-- A schedule without any timer tick: `SetBoilerState(BOILER_ON)`, goroutine 0
runs up to its select, `SetBoilerState(BOILER_OFF)`, `SetBoilerState(BOILER_ON)`,
goroutine 1 runs up to its select. -/
def onOffOnSchedule : List Event :=
  [Event.call (Command.SetBoilerState BOILER_ON),
    Event.step 0, Event.step 0, Event.step 0, Event.step 0, Event.step 0,
    Event.call (Command.SetBoilerState BOILER_OFF),
    Event.call (Command.SetBoilerState BOILER_ON),
    Event.step 1, Event.step 1, Event.step 1, Event.step 1, Event.step 1]

/-- The goroutine that returned at the guard of line 93. -/
def rejectedTask : Task :=
  { pc := Pc.done, i := 0, warmerWrites := 0, boilerWrites := 0 }

/-- `n` times: `SetBoilerState(BOILER_ON)`, and the goroutine it starts runs. -/
def repeatOn : Nat → Sys → Sys
  | 0, s => s
  | n + 1, s => repeatOn n (settle (SetBoilerState s BOILER_ON) s.tasks.length)

/-- The record after `Reset`, with the ticker handle nil and the flag clear. -/
def resetHardware : HardwareAPIImpl :=
  { brewingInProgress := false
    brewingTicker := none
    boilerState := BOILER_OFF
    boilerStatus := BOILER_EMPTY
    brewButtonStatus := BREW_BUTTON_NOT_PUSHED
    warmerPlateState := WARMER_OFF
    warmerStatus := WARMER_EMPTY
    reliefValveState := VALVE_CLOSED
    indicatorState := INDICATOR_OFF }

/-- The state two ticks into a cycle started at power-on: the flag is set, ticker 0
is running and goroutine 0 waits in the select with `i = 2`. -/
def brewingExample : Sys :=
  { hw := { resetHardware with boilerState := BOILER_ON, brewingInProgress := true,
                               brewingTicker := some 0 }
    tickers := [newTickerValue]
    tasks := [{ pc := Pc.recv 0, i := 2, warmerWrites := 0, boilerWrites := 0 }] }

/-- A schedule from power-on: `FillWater`, `PutPot`, `SetBoilerState(BOILER_ON)`,
goroutine 0 runs up to its select and through its first tick; then
`SetBoilerState(BOILER_OFF)` and `SetBoilerState(BOILER_ON)` are issued before
the next tick and goroutine 1 executes lines 93 and 97; then ticker 0 sends the
next tick and goroutine 0 executes the receive, lines 105-107 with `i++`, and
the loop condition of line 100. -/
def offThenOnSchedule : List Event :=
  [Event.call Command.FillWater, Event.call Command.PutPot,
    Event.call (Command.SetBoilerState BOILER_ON)] ++
  List.replicate 5 (Event.step 0) ++
  [Event.tick 0] ++ List.replicate 4 (Event.step 0) ++
  [Event.call (Command.SetBoilerState BOILER_OFF),
    Event.call (Command.SetBoilerState BOILER_ON), Event.step 1, Event.step 1] ++
  [Event.tick 0, Event.step 0, Event.step 0, Event.step 0]

/-- The rest of the run of goroutine 0 after `offThenOnSchedule`: it blocks in
the select, receives three more ticks, leaves the loop and runs lines 110-117
(goroutine 1 is not scheduled meanwhile). -/
def completionSchedule : List Event :=
  [Event.step 0] ++
  [Event.tick 0] ++ List.replicate 4 (Event.step 0) ++
  [Event.tick 0] ++ List.replicate 4 (Event.step 0) ++
  [Event.tick 0] ++ List.replicate 9 (Event.step 0)

/-- Program points from which a goroutine reaches line 111 only through the
check of line 110 (it is past line 97 and not at line 111 or 112). -/
def Pc.beforeCheck : Pc → Bool
  | Pc.guard => false
  | Pc.setFlag => false
  | Pc.writeWarmer => false
  | Pc.writeBoiler => false
  | _ => true

/-- The schedule contains only statements of goroutine `tid` and timer ticks
(no command and no statement of another goroutine). -/
def OnlyTask (tid : Nat) (es : List Event) : Prop :=
  ∀ e ∈ es, e = Event.step tid ∨ ∃ k, e = Event.tick k

/-- The flag is clear, goroutine `tid` is at a point from which it needs the
check of line 110 to reach the writes, its history counters are `w` and `b`, and
the two status fields are `ws` and `bs`. -/
def Aborting (u : Sys) (tid w b : Nat) (ws : WarmerStatus) (bs : BoilerStatus) : Prop :=
  u.hw.brewingInProgress = false ∧ u.hw.warmerStatus = ws ∧ u.hw.boilerStatus = bs ∧
    ∃ t, u.tasks[tid]? = some t ∧ t.pc.beforeCheck = true ∧
      t.warmerWrites = w ∧ t.boilerWrites = b

/-- A tick is buffered in the channel of ticker `k`. -/
def pendAt (tks : List Ticker) (k : Nat) : Bool :=
  match tks[k]? with
  | some tk => tk.pending
  | none => false

/-- A tick is buffered in the channel of the record's ticker, which is not
ticker `k`. -/
def pendOther (h : HardwareAPIImpl) (tks : List Ticker) (k : Option Nat) : Bool :=
  match h.brewingTicker with
  | some j => !(decide (some j = k)) && pendAt tks j
  | none => false

/-- An upper bound on the number of statements a goroutine executes before it
blocks, returns or crashes, when nothing else runs. -/
def stepsBound (h : HardwareAPIImpl) (tks : List Ticker) (t : Task) : Nat :=
  match t.pc with
  | Pc.guard => 10
  | Pc.setFlag => 9
  | Pc.newTicker => 8
  | Pc.loopCond => if pendOther h tks none then 11 else 7
  | Pc.selectEval => if pendOther h tks none then 10 else 1
  | Pc.recv k => if pendAt tks k then (if pendOther h tks (some k) then 13 else 9) else 0
  | Pc.valveCheck => if pendOther h tks none then 12 else 8
  | Pc.postCheck => 6
  | Pc.writeWarmer => 5
  | Pc.writeBoiler => 4
  | Pc.clearFlag => 3
  | Pc.stopTicker => 2
  | Pc.nilTicker => 1
  | Pc.done => 0
  | Pc.panicked => 0

/-- The state four ticks into a cycle started after power-on, `FillWater` and
`PutPot`: goroutine 0 waits for its fifth tick. -/
def fifthTickWait : Sys :=
  { hw := { resetHardware with boilerState := BOILER_ON, brewingInProgress := true,
                               brewingTicker := some 0, warmerStatus := POT_EMPTY,
                               boilerStatus := BOILER_NOT_EMPTY }
    tickers := [newTickerValue]
    tasks := [{ pc := Pc.recv 0, i := 4, warmerWrites := 0, boilerWrites := 0 }] }

/-- The five fields a brew-cycle goroutine never writes have the same values in
`h` and `h'`. -/
def SameUnwritten (h h' : HardwareAPIImpl) : Prop :=
  h'.boilerState = h.boilerState ∧ h'.brewButtonStatus = h.brewButtonStatus ∧
    h'.warmerPlateState = h.warmerPlateState ∧ h'.reliefValveState = h.reliefValveState ∧
    h'.indicatorState = h.indicatorState

/-- The schedule contains no command of the foreground caller. -/
def NoCall (es : List Event) : Prop :=
  ∀ e ∈ es, ∀ c, e ≠ Event.call c

/-- The schedule contains no `PressBrewButton` command. -/
def NoPress (es : List Event) : Prop :=
  ∀ e ∈ es, e ≠ Event.call Command.PressBrewButton

/-- The state right after goroutine 0 has left its loop at the fifth tick
(reached from `fifthTickWait` by the tick and three statements): it stands
before line 110. -/
def leftLoopExample : Sys :=
  { hw := fifthTickWait.hw
    tickers := [newTickerValue]
    tasks := [{ pc := Pc.postCheck, i := 5, warmerWrites := 0, boilerWrites := 0 }] }

/-- A schedule from power-on in which `Reset` is issued between the wake-up of
goroutine 0 and its re-check of the loop condition: `FillWater`, `PutPot`,
`SetBoilerState(BOILER_ON)`, goroutine 0 runs up to its select, ticker 0 sends
a tick, goroutine 0 receives it (line 102), `Reset()`, and goroutine 0 executes
lines 105-107 with `i++`, the loop condition of line 100, line 110, line 115 and
line 116. -/
def resetAfterWakeSchedule : List Event :=
  [Event.call Command.FillWater, Event.call Command.PutPot,
    Event.call (Command.SetBoilerState BOILER_ON)] ++
  List.replicate 5 (Event.step 0) ++
  [Event.tick 0, Event.step 0, Event.call Command.Reset] ++
  List.replicate 5 (Event.step 0)

/-- A schedule from power-on in which `Reset` is issued while goroutine 0 is
blocked in its select: `SetBoilerState(BOILER_ON)`, goroutine 0 runs up to its
select, `Reset()`. -/
def resetWhileWaitingSchedule : List Event :=
  [Event.call (Command.SetBoilerState BOILER_ON)] ++
  List.replicate 5 (Event.step 0) ++ [Event.call Command.Reset]

/-- A schedule from power-on with two `SetBoilerState(BOILER_ON)` commands in the
idle state; both goroutines read the flag (line 93) before either writes it
(line 97), then each creates its ticker (line 99) and runs up to its select. -/
def doubleEntrySchedule : List Event :=
  [Event.call (Command.SetBoilerState BOILER_ON),
    Event.call (Command.SetBoilerState BOILER_ON),
    Event.step 0, Event.step 1, Event.step 0, Event.step 1,
    Event.step 0, Event.step 0, Event.step 0,
    Event.step 1, Event.step 1, Event.step 1]

/-- The loop variable after one iteration that saw the valve in state `v`:
lines 105-107 (`i = 0` when the valve is open) followed by the `i++` of line
100. -/
def bump (v : ReliefValveState) (i : Nat) : Nat :=
  (if v = VALVE_OPEN then 0 else i) + 1

/-- The loop variable tested by line 100 after the ticks of the valve trace
`vs`, for a loop that stood at `i` (flag never cleared). -/
def counterFrom (i : Nat) (vs : List ReliefValveState) : Nat :=
  vs.foldl (fun j v => bump v j) i

/-- The loop has not ended before the last tick of the trace: the loop variable
is below 5 after every tick but the last. -/
def staysInLoop (i : Nat) : List ReliefValveState → Bool
  | [] => true
  | [_] => true
  | v :: w :: vs => decide (bump v i < 5) && staysInLoop (bump v i) (w :: vs)

/-- A schedule from power-on up to a running cycle with a second goroutine
launched but not yet run: `FillWater`, `PutPot`, `SetBoilerState(BOILER_ON)`,
goroutine 0 runs up to its select, and `SetBoilerState(BOILER_ON)` again
(goroutine 1 is started and stands before line 93). -/
def runningWithPendingOnSchedule : List Event :=
  [Event.call Command.FillWater, Event.call Command.PutPot,
    Event.call (Command.SetBoilerState BOILER_ON)] ++
  List.replicate 5 (Event.step 0) ++
  [Event.call (Command.SetBoilerState BOILER_ON)]

/-- A schedule without any command, to follow `SetBoilerState(BOILER_OFF)` in the
state after `runningWithPendingOnSchedule`: goroutine 1 executes line 93;
ticker 0 sends a tick and goroutine 0 executes the receive, lines 105-107 with
`i++` and the loop condition of line 100; goroutine 1 executes line 97; then
goroutine 0 executes lines 110, 111, 112, 115, 116 and 117. -/
def abortRaceSchedule : List Event :=
  [Event.step 1, Event.tick 0, Event.step 0, Event.step 0, Event.step 0, Event.step 1] ++
  List.replicate 6 (Event.step 0)

/-- A schedule from power-on that reaches `brewingExample`:
`SetBoilerState(BOILER_ON)`, goroutine 0 runs up to its select, and two ticks,
each followed by one iteration of the loop. -/
def twoTicksSchedule : List Event :=
  [Event.call (Command.SetBoilerState BOILER_ON)] ++ List.replicate 5 (Event.step 0) ++
  [Event.tick 0] ++ List.replicate 4 (Event.step 0) ++
  [Event.tick 0] ++ List.replicate 4 (Event.step 0)

/-- A schedule in a state with a running cycle: `SetBoilerState(BOILER_ON)`, then
`SetBoilerState(BOILER_OFF)` before the started goroutine (goroutine 1) has run,
then goroutine 1 runs up to its select. -/
def onThenOffSchedule : List Event :=
  [Event.call (Command.SetBoilerState BOILER_ON),
    Event.call (Command.SetBoilerState BOILER_OFF)] ++
  List.replicate 5 (Event.step 1)

/-- A schedule in a state with a running cycle that waits for its fifth tick:
`SetBoilerState(BOILER_ON)` and no other command; ticker 0 sends the tick and
goroutine 0 runs to its end before the started goroutine (goroutine 1) runs
up to its select. -/
def onBeforeLastTickSchedule : List Event :=
  [Event.call (Command.SetBoilerState BOILER_ON), Event.tick 0] ++
  List.replicate 9 (Event.step 0) ++ List.replicate 5 (Event.step 1)

/-- A schedule from power-on with two cycles in their loops and no `Reset`:
`SetBoilerState(BOILER_ON)`, goroutine 0 runs up to its select,
`SetBoilerState(BOILER_OFF)`, `SetBoilerState(BOILER_ON)`, goroutine 1 runs up to
its select, `SetBoilerState(BOILER_OFF)`. -/
def twoCyclesOffSchedule : List Event :=
  [Event.call (Command.SetBoilerState BOILER_ON)] ++ List.replicate 5 (Event.step 0) ++
  [Event.call (Command.SetBoilerState BOILER_OFF),
    Event.call (Command.SetBoilerState BOILER_ON)] ++
  List.replicate 5 (Event.step 1) ++
  [Event.call (Command.SetBoilerState BOILER_OFF)]

/-- After `twoCyclesOffSchedule`: ticker 0 sends a tick and goroutine 0 leaves its
loop on the cleared flag and runs lines 110, 115, 116 and 117. -/
def firstCycleExitSchedule : List Event :=
  [Event.tick 0] ++ List.replicate 7 (Event.step 0)

/-- After `twoCyclesOffSchedule`: both tickers send a tick, goroutine 0 leaves
its loop and runs to its end, then goroutine 1 leaves its loop and runs lines
110, 115 and 116. -/
def secondCycleExitSchedule : List Event :=
  [Event.tick 0, Event.tick 1] ++ List.replicate 7 (Event.step 0) ++
  List.replicate 6 (Event.step 1)

/-- After the fifth tick of a single cycle: goroutine 0 runs up to line 115
included, `SetBoilerState(BOILER_ON)` starts goroutine 1, which executes lines
93 and 97, and goroutine 0 executes lines 116 and 117. -/
def onDuringCleanupSchedule : List Event :=
  [Event.tick 0] ++ List.replicate 7 (Event.step 0) ++
  [Event.call (Command.SetBoilerState BOILER_ON), Event.step 1, Event.step 1,
    Event.step 0, Event.step 0]

/-! ## Lemmas on lists and on single steps -/

theorem crashed_eq_true_iff (s : Sys) :
    s.crashed = true ↔ ∃ t ∈ s.tasks, t.pc = Pc.panicked := by
  simp [Sys.crashed, List.any_eq_true]

theorem stepLocal_panicked (h : HardwareAPIImpl) (tk : List Ticker) (t : Task)
    (hp : t.pc = Pc.panicked) : stepLocal h tk t = none := by
  simp [stepLocal, hp]

theorem stepTask_eq_local (s : Sys) (tid : Nat) (t : Task)
    (ht : s.tasks[tid]? = some t) (ho : OthersFine s tid) :
    stepTask s tid =
      (stepLocal s.hw s.tickers t).map fun c =>
        { hw := c.1, tickers := c.2.1, tasks := s.tasks.set tid c.2.2 } := by
  unfold stepTask
  by_cases hc : s.crashed = true
  · obtain ⟨u, hu, hup⟩ := (crashed_eq_true_iff s).1 hc
    obtain ⟨j, hj⟩ := List.getElem?_of_mem hu
    have hjt : j = tid := by
      by_contra hne
      exact ho j u hne hj hup
    subst hjt
    have hut : u = t := by
      rw [hj] at ht
      exact Option.some.inj ht
    subst hut
    simp [hc, stepLocal_panicked _ _ _ hup]
  · simp only [hc, ht]
    cases stepLocal s.hw s.tickers t <;> simp

theorem set_self_of_lookup {α : Type} (l : List α) (n : Nat) (a : α)
    (h : l[n]? = some a) : l.set n a = l := by
  induction l generalizing n with
  | nil => simp
  | cons x xs ih =>
      cases n with
      | zero =>
          simp at h
          simp [h]
      | succ m =>
          simp at h
          simp [ih m h]

theorem lookup_set_self {α : Type} (l : List α) (n : Nat) (a b : α)
    (h : l[n]? = some a) : (l.set n b)[n]? = some b := by
  induction l generalizing n with
  | nil => simp at h
  | cons x xs ih =>
      cases n with
      | zero => simp
      | succ m =>
          simp at h
          simpa using ih m h

theorem lookup_set_other {α : Type} (l : List α) (n j : Nat) (b : α)
    (h : j ≠ n) : (l.set n b)[j]? = l[j]? := by
  induction l generalizing n j with
  | nil => simp
  | cons x xs ih =>
      cases n with
      | zero =>
          cases j with
          | zero => exact absurd rfl h
          | succ k => simp
      | succ m =>
          cases j with
          | zero => simp
          | succ k =>
              have : k ≠ m := fun e => h (by rw [e])
              simpa using ih m k this

theorem set_set_same {α : Type} (l : List α) (n : Nat) (a b : α) :
    (l.set n a).set n b = l.set n b := by
  induction l generalizing n with
  | nil => simp
  | cons x xs ih =>
      cases n with
      | zero => simp
      | succ m => simp [ih m]

theorem runTask_eq_local (n : Nat) (s : Sys) (tid : Nat) (t : Task)
    (ht : s.tasks[tid]? = some t) (ho : OthersFine s tid) :
    runTask n s tid =
      { hw := (runLocal n (s.hw, s.tickers, t)).1
        tickers := (runLocal n (s.hw, s.tickers, t)).2.1
        tasks := s.tasks.set tid (runLocal n (s.hw, s.tickers, t)).2.2 } := by
  induction n generalizing s t with
  | zero =>
      simp [runTask, runLocal, set_self_of_lookup _ _ _ ht]
  | succ m ih =>
      simp only [runTask, runLocal, stepTask_eq_local s tid t ht ho]
      cases hs : stepLocal s.hw s.tickers t with
      | none => simp [set_self_of_lookup _ _ _ ht]
      | some c =>
          simp only [Option.map_some']
          have ht' : (s.tasks.set tid c.2.2)[tid]? = some c.2.2 :=
            lookup_set_self _ _ _ _ ht
          have ho' : OthersFine
              { hw := c.1, tickers := c.2.1, tasks := s.tasks.set tid c.2.2 } tid := by
            intro j u hj hu
            have : s.tasks[j]? = some u := by
              rw [← lookup_set_other s.tasks tid j c.2.2 hj]
              exact hu
            exact ho j u hj this
          rw [ih _ c.2.2 ht' ho']
          simp [set_set_same]

theorem not_crashed_of (s : Sys) (tid : Nat) (t : Task)
    (ht : s.tasks[tid]? = some t) (ho : OthersFine s tid) (hp : t.pc ≠ Pc.panicked) :
    s.crashed = false := by
  cases hc : s.crashed with
  | false => rfl
  | true =>
      obtain ⟨u, hu, hup⟩ := (crashed_eq_true_iff s).1 hc
      obtain ⟨j, hj⟩ := List.getElem?_of_mem hu
      by_cases hjt : j = tid
      · subst hjt
        rw [hj] at ht
        exact absurd hup (by rw [Option.some.inj ht]; exact hp)
      · exact absurd hup (ho j u hjt hj)

/-- The state after a tick. -/
theorem tickTask_eq_local (s : Sys) (tid k : Nat) (t : Task) (tk : Ticker)
    (ht : s.tasks[tid]? = some t) (ho : OthersFine s tid) (hpc : t.pc = Pc.recv k)
    (hk : s.tickers[k]? = some tk) (hst : tk.stopped = false) :
    tickTask s tid = some
      { hw := (runLocal 16 (s.hw, s.tickers.set k { stopped := false, pending := true }, t)).1
        tickers := (runLocal 16 (s.hw, s.tickers.set k { stopped := false, pending := true }, t)).2.1
        tasks := s.tasks.set tid
          (runLocal 16 (s.hw, s.tickers.set k { stopped := false, pending := true }, t)).2.2 } := by
  have hc : s.crashed = false := not_crashed_of s tid t ht ho (by rw [hpc]; simp)
  simp only [tickTask, ht, hpc, fire, hc, hk, hst]
  simp only [Bool.false_eq_true, if_false, settle]
  exact congrArg some (runTask_eq_local 16 _ tid t ht ho)

theorem runLocal_recv (h : HardwareAPIImpl) (tks : List Ticker) (k : Nat)
    (i w b : Nat) (hk : tks[k]? = some { stopped := false, pending := false })
    (hb : h.brewingTicker = some k) :
    runLocal 16 (h, tks.set k { stopped := false, pending := true },
        { pc := Pc.recv k, i := i, warmerWrites := w, boilerWrites := b }) =
      if (if h.reliefValveState = VALVE_OPEN then 0 else i) + 1 < 5 ∧ h.brewingInProgress = true then
        (h, tks, { pc := Pc.recv k, i := (if h.reliefValveState = VALVE_OPEN then 0 else i) + 1,
                   warmerWrites := w, boilerWrites := b })
      else if h.brewingInProgress = true then
        ({ h with warmerStatus := POT_NOT_EMPTY, boilerStatus := BOILER_EMPTY,
                  brewingInProgress := false, brewingTicker := none },
          stopTickerAt tks k,
          { pc := Pc.done, i := (if h.reliefValveState = VALVE_OPEN then 0 else i) + 1,
            warmerWrites := w + 1, boilerWrites := b + 1 })
      else
        ({ h with brewingInProgress := false, brewingTicker := none },
          stopTickerAt tks k,
          { pc := Pc.done, i := (if h.reliefValveState = VALVE_OPEN then 0 else i) + 1,
            warmerWrites := w, boilerWrites := b }) := by
  have h1 : (tks.set k { stopped := false, pending := true })[k]? =
      some { stopped := false, pending := true } :=
    lookup_set_self _ _ _ _ hk
  have h2 : (tks.set k ({ stopped := false, pending := true } : Ticker)).set k
      { stopped := false, pending := false } = tks := by
    rw [set_set_same, set_self_of_lookup _ _ _ hk]
  by_cases hv : h.reliefValveState = VALVE_OPEN <;> by_cases hf : h.brewingInProgress = true <;>
    by_cases hi : i + 1 < 5
  all_goals simp [runLocal, stepLocal, h1, h2, hk, hv, hf, hi, hb, isBrewingInProgress, setBrewingInProgress]

theorem set_length_append {α : Type} (l : List α) (a b : α) :
    (l ++ [a]).set l.length b = l ++ [b] := by
  induction l with
  | nil => rfl
  | cons x xs ih => simp [ih]

theorem runLocal_launch (h : HardwareAPIImpl) (tks : List Ticker)
    (hf : h.brewingInProgress = false) :
    runLocal 16 (h, tks, newTask) =
      ({ h with brewingInProgress := true, brewingTicker := some tks.length },
        tks ++ [newTickerValue],
        { pc := Pc.recv tks.length, i := 0, warmerWrites := 0, boilerWrites := 0 }) := by
  simp [runLocal, stepLocal, newTask, hf, isBrewingInProgress, setBrewingInProgress,
    newTickerValue]

theorem runLocal_rejected (h : HardwareAPIImpl) (tks : List Ticker)
    (hf : h.brewingInProgress = true) :
    runLocal 16 (h, tks, newTask) =
      (h, tks, { pc := Pc.done, i := 0, warmerWrites := 0, boilerWrites := 0 }) := by
  simp [runLocal, stepLocal, newTask, hf, isBrewingInProgress]

theorem othersFine_launch (s : Sys) (b : BoilerState)
    (hs : ∀ t ∈ s.tasks, t.pc ≠ Pc.panicked) :
    OthersFine { s with hw := { s.hw with boilerState := b }, tasks := s.tasks ++ [newTask] }
      s.tasks.length := by
  intro j u hj hu
  have hlt : j < s.tasks.length := by
    have h1 : j < (s.tasks ++ [newTask]).length := by
      by_contra hcon
      have : (s.tasks ++ [newTask])[j]? = none := List.getElem?_eq_none (Nat.le_of_not_lt hcon)
      simp only at hu
      rw [this] at hu
      exact Option.noConfusion hu
    simp at h1
    omega
  simp only at hu
  rw [List.getElem?_append_left hlt] at hu
  exact hs u (List.getElem?_mem hu)

/-- Starting a cycle: the goroutine launched in a state with a clear flag sets the
flag, creates a ticker and blocks in the select. -/
theorem settle_launch (s : Sys) (hs : ∀ t ∈ s.tasks, t.pc ≠ Pc.panicked)
    (hf : s.hw.brewingInProgress = false) :
    settle (SetBoilerState s BOILER_ON) s.tasks.length =
      { hw := { s.hw with boilerState := BOILER_ON, brewingInProgress := true,
                          brewingTicker := some s.tickers.length }
        tickers := s.tickers ++ [newTickerValue]
        tasks := s.tasks ++
          [{ pc := Pc.recv s.tickers.length, i := 0, warmerWrites := 0, boilerWrites := 0 }] } := by
  have hS : SetBoilerState s BOILER_ON =
      { s with hw := { s.hw with boilerState := BOILER_ON }, tasks := s.tasks ++ [newTask] } := by
    simp [SetBoilerState]
  rw [hS, settle, runTask_eq_local 16 _ s.tasks.length newTask (by simp)
    (othersFine_launch s BOILER_ON hs)]
  simp only []
  rw [runLocal_launch _ _ (by simpa using hf)]
  simp [set_length_append]

theorem tickTask_waiting (u : Sys) (tid k i w b : Nat) (hw : Waiting u tid k i w b) :
    tickTask u tid = some (afterTick u tid k i w b) := by
  rw [tickTask_eq_local u tid k _ _ hw.task hw.others rfl hw.ticker rfl,
    runLocal_recv u.hw u.tickers k i w b hw.ticker hw.handle]
  unfold afterTick nextI
  by_cases h1 : (if u.hw.reliefValveState = VALVE_OPEN then 0 else i) + 1 < 5 ∧
      u.hw.brewingInProgress = true
  · rw [if_pos h1, if_pos h1]
  · by_cases h2 : u.hw.brewingInProgress = true
    · rw [if_neg h1, if_neg h1, if_pos h2, if_pos h2]
    · rw [if_neg h1, if_neg h1, if_neg h2, if_neg h2]

theorem waiting_afterTick (u : Sys) (tid k i w b : Nat) (hw : Waiting u tid k i w b)
    (hc : nextI u i < 5 ∧ u.hw.brewingInProgress = true) :
    Waiting (afterTick u tid k i w b) tid k (nextI u i) w b := by
  have he : afterTick u tid k i w b =
      { hw := u.hw
        tickers := u.tickers
        tasks := u.tasks.set tid
          { pc := Pc.recv k, i := nextI u i, warmerWrites := w, boilerWrites := b } } := by
    unfold afterTick
    rw [if_pos hc]
  rw [he]
  refine ⟨lookup_set_self _ _ _ _ hw.task, ?_, hw.ticker, hw.handle⟩
  intro j t hj ht
  simp only at ht
  rw [lookup_set_other _ _ _ _ hj] at ht
  exact hw.others j t hj ht

theorem nextI_closed (u : Sys) (i : Nat) (hv : u.hw.reliefValveState = VALVE_CLOSED) :
    nextI u i = i + 1 := by
  simp [nextI, hv]

theorem nextI_open (u : Sys) (i : Nat) (hv : u.hw.reliefValveState = VALVE_OPEN) :
    nextI u i = 1 := by
  simp [nextI, hv]

theorem ticks_succ_last (n : Nat) (u : Sys) (tid : Nat) :
    ticks (n + 1) u tid = (ticks n u tid).bind fun v => tickTask v tid := by
  induction n generalizing u with
  | zero =>
      simp only [ticks, Option.some_bind]
      cases h : tickTask u tid <;> rfl
  | succ m ih =>
      rw [ticks]
      cases h : tickTask u tid with
      | none => simp [ticks, h]
      | some v =>
          simp only []
          rw [ih v]
          simp [ticks, h]

/-- While the valve is closed and the flag is set, `n` ticks only advance the loop
variable, as long as it stays below 5. -/
theorem ticks_closed (n : Nat) (u : Sys) (tid k i w b : Nat) (hw : Waiting u tid k i w b)
    (hv : u.hw.reliefValveState = VALVE_CLOSED) (hf : u.hw.brewingInProgress = true)
    (hn : i + n < 5) :
    ticks n u tid = some
      { hw := u.hw
        tickers := u.tickers
        tasks := u.tasks.set tid
          { pc := Pc.recv k, i := i + n, warmerWrites := w, boilerWrites := b } } := by
  induction n generalizing u i with
  | zero => simp [ticks, set_self_of_lookup _ _ _ hw.task]
  | succ m ih =>
      have hc : nextI u i < 5 ∧ u.hw.brewingInProgress = true := by
        rw [nextI_closed u i hv]
        exact ⟨by omega, hf⟩
      have hw' := waiting_afterTick u tid k i w b hw hc
      have he : afterTick u tid k i w b =
          { hw := u.hw
            tickers := u.tickers
            tasks := u.tasks.set tid
              { pc := Pc.recv k, i := i + 1, warmerWrites := w, boilerWrites := b } } := by
        unfold afterTick
        rw [if_pos hc, nextI_closed u i hv]
      rw [ticks, tickTask_waiting u tid k i w b hw]
      simp only []
      rw [nextI_closed u i hv] at hw'
      rw [ih (afterTick u tid k i w b) (i + 1) hw' (by rw [he]; exact hv) (by rw [he]; exact hf)
        (by omega), he]
      simp [set_set_same, Nat.add_assoc, Nat.add_comm 1 m]

theorem idle_no_panic (s : Sys) (h : ∀ t ∈ s.tasks, t.pc = Pc.done) :
    ∀ t ∈ s.tasks, t.pc ≠ Pc.panicked := by
  intro t ht hp
  rw [h t ht] at hp
  exact Pc.noConfusion hp

theorem othersFine_append_last (hw : HardwareAPIImpl) (tks : List Ticker) (l : List Task)
    (t : Task) (hl : ∀ x ∈ l, x.pc ≠ Pc.panicked) :
    OthersFine { hw := hw, tickers := tks, tasks := l ++ [t] } l.length := by
  intro j u hj hu
  have hlt : j < l.length := by
    have h1 : j < (l ++ [t]).length := by
      by_contra hcon
      have : (l ++ [t])[j]? = none := List.getElem?_eq_none (Nat.le_of_not_lt hcon)
      simp only at hu
      rw [this] at hu
      exact Option.noConfusion hu
    simp at h1
    omega
  simp only at hu
  rw [List.getElem?_append_left hlt] at hu
  exact hl u (List.getElem?_mem hu)

/-- After `SetBoilerState(BOILER_ON)` in a state with a clear flag the new
goroutine waits in its loop with `i = 0`. -/
theorem waiting_launch (s : Sys) (hs : ∀ t ∈ s.tasks, t.pc ≠ Pc.panicked)
    (hf : s.hw.brewingInProgress = false) :
    Waiting (settle (SetBoilerState s BOILER_ON) s.tasks.length) s.tasks.length
      s.tickers.length 0 0 0 := by
  rw [settle_launch s hs hf]
  refine ⟨by simp, othersFine_append_last _ _ _ _ hs, by simp [newTickerValue], rfl⟩

/-- The state reached by the fifth tick of a cycle whose valve stays closed. -/
theorem ticks_closed_complete (u : Sys) (tid k w b : Nat) (hw : Waiting u tid k 0 w b)
    (hv : u.hw.reliefValveState = VALVE_CLOSED) (hf : u.hw.brewingInProgress = true) :
    ticks 5 u tid = some
      { hw := { u.hw with warmerStatus := POT_NOT_EMPTY, boilerStatus := BOILER_EMPTY,
                          brewingInProgress := false, brewingTicker := none }
        tickers := stopTickerAt u.tickers k
        tasks := u.tasks.set tid
          { pc := Pc.done, i := 5, warmerWrites := w + 1, boilerWrites := b + 1 } } := by
  rw [ticks_succ_last, ticks_closed 4 u tid k 0 w b hw hv hf (by omega)]
  simp only [Option.some_bind, Nat.zero_add]
  have hw4 : Waiting
      { hw := u.hw
        tickers := u.tickers
        tasks := u.tasks.set tid
          { pc := Pc.recv k, i := 4, warmerWrites := w, boilerWrites := b } } tid k 4 w b := by
    refine ⟨lookup_set_self _ _ _ _ hw.task, ?_, hw.ticker, hw.handle⟩
    intro j t hj ht
    simp only at ht
    rw [lookup_set_other _ _ _ _ hj] at ht
    exact hw.others j t hj ht
  rw [tickTask_waiting _ tid k 4 w b hw4]
  simp [afterTick, nextI, hv, hf, set_set_same]

/-- C1: from every idle state (flag clear, no live goroutine) with the relief
valve closed, `SetBoilerState(BOILER_ON)` followed by timer ticks with no other
command behaves as follows.  After `n ≤ 4` ticks the goroutine is still blocked
in its loop with `i = n`, the flag is set, it has executed neither line 111 nor
line 112, and `warmerStatus` and `boilerStatus` are what they were.  After the
fifth tick the goroutine has returned, it has executed each of the two writes
exactly once, `warmerStatus = POT_NOT_EMPTY`, `boilerStatus = BOILER_EMPTY`, the
flag is clear and the ticker handle is nil.  In particular, from every state
without a live goroutine, `Reset(); FillWater(); PutPot();
SetBoilerState(BOILER_ON)` and five ticks make `GetWarmerPlateStatus()` return
`POT_NOT_EMPTY` and `GetBoilerStatus()` return `BOILER_EMPTY`. -/
theorem brew_completes_at_fifth_tick (s : Sys) (hidle : Idle s)
    (hv : s.hw.reliefValveState = VALVE_CLOSED) :
    (∀ n, n ≤ 4 →
      ∃ u, ticks n (settle (SetBoilerState s BOILER_ON) s.tasks.length) s.tasks.length = some u ∧
        u.tasks[s.tasks.length]? =
          some { pc := Pc.recv s.tickers.length, i := n, warmerWrites := 0, boilerWrites := 0 } ∧
        stepTask u s.tasks.length = none ∧
        u.hw.brewingInProgress = true ∧
        u.hw.warmerStatus = s.hw.warmerStatus ∧ u.hw.boilerStatus = s.hw.boilerStatus) ∧
    (∃ u, ticks 5 (settle (SetBoilerState s BOILER_ON) s.tasks.length) s.tasks.length = some u ∧
        u.tasks[s.tasks.length]? =
          some { pc := Pc.done, i := 5, warmerWrites := 1, boilerWrites := 1 } ∧
        stepTask u s.tasks.length = none ∧
        u.hw.brewingInProgress = false ∧ u.hw.brewingTicker = none ∧
        u.hw.warmerStatus = POT_NOT_EMPTY ∧ u.hw.boilerStatus = BOILER_EMPTY) ∧
    (∀ s0 : Sys, (∀ t ∈ s0.tasks, t.pc = Pc.done) →
      ∃ u, ticks 5
          (settle (runCmds s0 [Command.Reset, Command.FillWater, Command.PutPot,
            Command.SetBoilerState BOILER_ON]) s0.tasks.length) s0.tasks.length = some u ∧
        GetWarmerPlateStatus u.hw = POT_NOT_EMPTY ∧ GetBoilerStatus u.hw = BOILER_EMPTY) := by
  have key : ∀ s : Sys, Idle s → s.hw.reliefValveState = VALVE_CLOSED →
      (∀ n, n ≤ 4 →
        ∃ u, ticks n (settle (SetBoilerState s BOILER_ON) s.tasks.length) s.tasks.length = some u ∧
          u.tasks[s.tasks.length]? =
            some { pc := Pc.recv s.tickers.length, i := n, warmerWrites := 0, boilerWrites := 0 } ∧
          stepTask u s.tasks.length = none ∧
          u.hw.brewingInProgress = true ∧
          u.hw.warmerStatus = s.hw.warmerStatus ∧ u.hw.boilerStatus = s.hw.boilerStatus) ∧
      (∃ u, ticks 5 (settle (SetBoilerState s BOILER_ON) s.tasks.length) s.tasks.length = some u ∧
          u.tasks[s.tasks.length]? =
            some { pc := Pc.done, i := 5, warmerWrites := 1, boilerWrites := 1 } ∧
          stepTask u s.tasks.length = none ∧
          u.hw.brewingInProgress = false ∧ u.hw.brewingTicker = none ∧
          u.hw.warmerStatus = POT_NOT_EMPTY ∧ u.hw.boilerStatus = BOILER_EMPTY) := by
    intro s hidle hv
    have hs := idle_no_panic s hidle.2
    have hw := waiting_launch s hs hidle.1
    have hl := settle_launch s hs hidle.1
    have hv0 : (settle (SetBoilerState s BOILER_ON) s.tasks.length).hw.reliefValveState =
        VALVE_CLOSED := by rw [hl]; exact hv
    have hf0 : (settle (SetBoilerState s BOILER_ON) s.tasks.length).hw.brewingInProgress =
        true := by rw [hl]
    constructor
    · intro n hn
      refine ⟨_, ticks_closed n _ _ _ 0 0 0 hw hv0 hf0 (by omega), ?_, ?_, ?_, ?_, ?_⟩
      · simp [lookup_set_self _ _ _ _ hw.task]
      · have ht : (List.set (settle (SetBoilerState s BOILER_ON) s.tasks.length).tasks
            s.tasks.length
            { pc := Pc.recv s.tickers.length, i := 0 + n, warmerWrites := 0,
              boilerWrites := 0 })[s.tasks.length]? = some
            { pc := Pc.recv s.tickers.length, i := 0 + n, warmerWrites := 0,
              boilerWrites := 0 } := lookup_set_self _ _ _ _ hw.task
        rw [stepTask_eq_local _ _ _ ht]
        · simp [stepLocal, hw.ticker]
        · intro j t hj hjt
          simp only at hjt
          rw [lookup_set_other _ _ _ _ hj] at hjt
          exact hw.others j t hj hjt
      · exact hf0
      · rw [hl]
      · rw [hl]
    · refine ⟨_, ticks_closed_complete _ _ _ 0 0 hw hv0 hf0, ?_, ?_, rfl, rfl, rfl, rfl⟩
      · simp [lookup_set_self _ _ _ _ hw.task]
      · have ht : (List.set (settle (SetBoilerState s BOILER_ON) s.tasks.length).tasks
            s.tasks.length
            { pc := Pc.done, i := 5, warmerWrites := 0 + 1,
              boilerWrites := 0 + 1 })[s.tasks.length]? = some
            { pc := Pc.done, i := 5, warmerWrites := 0 + 1,
              boilerWrites := 0 + 1 } := lookup_set_self _ _ _ _ hw.task
        rw [stepTask_eq_local _ _ _ ht]
        · simp [stepLocal]
        · intro j t hj hjt
          simp only at hjt
          rw [lookup_set_other _ _ _ _ hj] at hjt
          exact hw.others j t hj hjt
  refine ⟨(key s hidle hv).1, (key s hidle hv).2, ?_⟩
  intro s0 h0
  have hi : Idle (runCmds s0 [Command.Reset, Command.FillWater, Command.PutPot]) := by
    refine ⟨rfl, ?_⟩
    simpa [runCmds, applyCmd, Reset] using h0
  obtain ⟨u, hu, _, _, _, _, hws, hbs⟩ := (key _ hi rfl).2
  have hlen : (runCmds s0 [Command.Reset, Command.FillWater, Command.PutPot]).tasks.length =
      s0.tasks.length := by
    simp [runCmds, applyCmd, Reset]
  rw [hlen] at hu
  exact ⟨u, hu, hws, hbs⟩

/-- C1 at power-on. -/
theorem brew_completes_at_fifth_tick_witness :
    Idle powerOn ∧ powerOn.hw.reliefValveState = VALVE_CLOSED ∧
      ∃ u, ticks 5 (settle (SetBoilerState powerOn BOILER_ON) 0) 0 = some u ∧
        u.hw.warmerStatus = POT_NOT_EMPTY ∧ u.hw.boilerStatus = BOILER_EMPTY :=
  ⟨⟨rfl, by decide⟩, rfl,
    match (brew_completes_at_fifth_tick powerOn ⟨rfl, by decide⟩ rfl).2.1 with
    | ⟨u, hu, _, _, _, _, hws, hbs⟩ => ⟨u, hu, hws, hbs⟩⟩

theorem pendAt_set_same (tks : List Ticker) (k : Nat) (tk : Ticker)
    (hk : tks[k]? = some tk) :
    pendAt (tks.set k { stopped := tk.stopped, pending := false }) k = false := by
  simp [pendAt, lookup_set_self _ _ _ _ hk]

theorem pendAt_set_other (tks : List Ticker) (k j : Nat) (x : Ticker) (hj : j ≠ k) :
    pendAt (tks.set k x) j = pendAt tks j := by
  simp [pendAt, lookup_set_other _ _ _ _ hj]

theorem pendAt_append_length (tks : List Ticker) :
    pendAt (tks ++ [newTickerValue]) tks.length = false := by
  simp [pendAt, newTickerValue]

theorem pendOther_after_recv (h : HardwareAPIImpl) (tks : List Ticker) (k : Nat)
    (tk : Ticker) (hk : tks[k]? = some tk) :
    pendOther h (tks.set k { stopped := tk.stopped, pending := false }) none =
      pendOther h tks (some k) := by
  unfold pendOther
  cases hb : h.brewingTicker with
  | none => rfl
  | some j =>
      by_cases hjk : j = k
      · subst hjk
        simp [pendAt_set_same _ _ _ hk]
      · simp [pendAt_set_other _ _ _ _ hjk, hjk]

/-- Every statement lowers `stepsBound`. -/
theorem stepsBound_decreases (h : HardwareAPIImpl) (tks : List Ticker) (t : Task)
    (c : HardwareAPIImpl × List Ticker × Task) (hs : stepLocal h tks t = some c) :
    stepsBound c.1 c.2.1 c.2.2 < stepsBound h tks t := by
  cases t with
  | mk pc i w b =>
      cases pc <;> simp only [stepLocal] at hs
      · by_cases hf : isBrewingInProgress h = true <;> simp [hf] at hs <;> cases hs <;>
          simp [stepsBound]
      · cases Option.some.inj hs
        simp [stepsBound]
      · cases Option.some.inj hs
        simp [stepsBound, pendOther, pendAt_append_length]
      · by_cases hf : (decide (i < 5) && isBrewingInProgress h) = true <;> simp [hf] at hs <;>
          cases hs <;> simp [stepsBound] <;> split <;> omega
      · cases hb : h.brewingTicker with
        | none =>
            rw [hb] at hs
            cases Option.some.inj hs
            simp [stepsBound, pendOther, hb]
        | some k =>
            rw [hb] at hs
            cases Option.some.inj hs
            simp only [stepsBound, pendOther, hb]
            cases hp : pendAt tks k <;> simp [hp]
      · rename_i k
        cases hk : tks[k]? with
        | none => rw [hk] at hs; exact Option.noConfusion hs
        | some tk =>
            rw [hk] at hs
            cases hpd : tk.pending with
            | false => simp [hpd] at hs
            | true =>
                simp [hpd] at hs
                cases hs
                have hp : pendAt tks k = true := by simp [pendAt, hk, hpd]
                simp only [stepsBound, pendOther_after_recv h tks k tk hk, hp]
                cases pendOther h tks (some k) <;> simp
      · cases Option.some.inj hs
        simp only [stepsBound]
        cases pendOther h tks none <;> simp
      · by_cases hf : isBrewingInProgress h = true <;> simp [hf] at hs <;> cases hs <;>
          simp [stepsBound]
      · cases Option.some.inj hs
        simp [stepsBound]
      · cases Option.some.inj hs
        simp [stepsBound]
      · cases Option.some.inj hs
        simp [stepsBound]
      · cases hb : h.brewingTicker <;> rw [hb] at hs <;> cases Option.some.inj hs <;>
          simp [stepsBound]
      · cases Option.some.inj hs
        simp [stepsBound]
      · exact Option.noConfusion hs
      · exact Option.noConfusion hs

theorem stepsBound_le (h : HardwareAPIImpl) (tks : List Ticker) (t : Task) :
    stepsBound h tks t ≤ 13 := by
  unfold stepsBound
  cases t.pc <;> simp only [] <;> (repeat' split) <;> omega

theorem runLocal_stuck (n : Nat) (c : HardwareAPIImpl × List Ticker × Task)
    (hn : stepsBound c.1 c.2.1 c.2.2 ≤ n) :
    stepLocal (runLocal n c).1 (runLocal n c).2.1 (runLocal n c).2.2 = none := by
  induction n generalizing c with
  | zero =>
      simp only [runLocal]
      cases hs : stepLocal c.1 c.2.1 c.2.2 with
      | none => rfl
      | some c' =>
          have := stepsBound_decreases _ _ _ _ hs
          omega
  | succ m ih =>
      simp only [runLocal]
      cases hs : stepLocal c.1 c.2.1 c.2.2 with
      | none => simpa using hs
      | some c' =>
          have := stepsBound_decreases _ _ _ _ hs
          exact ih c' (by omega)

/-- After `settle` goroutine `tid` cannot move: 16 statements are enough in every
state. -/
theorem settle_quiescent (s : Sys) (tid : Nat) : stepTask (settle s tid) tid = none := by
  cases ht : s.tasks[tid]? with
  | none =>
      have h0 : ∀ n, runTask n s tid = s := by
        intro n
        cases n with
        | zero => rfl
        | succ m => simp [runTask, stepTask, ht]
      rw [settle, h0]
      simp [stepTask, ht]
  | some t =>
      by_cases ho : OthersFine s tid
      · rw [settle, runTask_eq_local 16 s tid t ht ho]
        have ht' : (s.tasks.set tid (runLocal 16 (s.hw, s.tickers, t)).2.2)[tid]? =
            some (runLocal 16 (s.hw, s.tickers, t)).2.2 :=
          lookup_set_self _ _ _ _ ht
        rw [stepTask_eq_local _ tid _ ht' (by
          intro j u hj hu
          simp only at hu
          rw [lookup_set_other _ _ _ _ hj] at hu
          exact ho j u hj hu)]
        simp only []
        rw [runLocal_stuck 16 (s.hw, s.tickers, t)
          (le_trans (stepsBound_le s.hw s.tickers t) (by decide))]
        rfl
      · have hc : s.crashed = true := by
          unfold OthersFine at ho
          push_neg at ho
          obtain ⟨j, u, _, hu, hp⟩ := ho
          exact (crashed_eq_true_iff s).2 ⟨u, List.getElem?_mem hu, hp⟩
        have h0 : ∀ n, runTask n s tid = s := by
          intro n
          cases n with
          | zero => rfl
          | succ m => simp [runTask, stepTask, hc]
        rw [settle, h0]
        simp [stepTask, hc]

/-- C2 (the code at the failing input): after power-on, `FillWater`, `PutPot` and
`SetBoilerState(BOILER_ON)`, with the relief valve open at tick 3 and closed at
every other tick, the goroutine is still in its loop after tick 6 (with `i = 4`)
and the cycle completes at tick 7, not at tick 8: after the seventh tick the
goroutine has returned and has written `POT_NOT_EMPTY` and `BOILER_EMPTY`.  The
reset `i = 0` of line 106 is followed by the loop's `i++`, so the tick with the
open valve counts as the first tick of the new countdown. -/
theorem valve_open_at_tick_three_completes_at_tick_seven :
    ∃ u6 u7 : Sys,
      runValves
        (settle (runCmds powerOn [Command.FillWater, Command.PutPot,
          Command.SetBoilerState BOILER_ON]) 0) 0
        [VALVE_CLOSED, VALVE_CLOSED, VALVE_OPEN, VALVE_CLOSED, VALVE_CLOSED, VALVE_CLOSED] =
          some u6 ∧
      u6.tasks = [{ pc := Pc.recv 0, i := 4, warmerWrites := 0, boilerWrites := 0 }] ∧
      u6.hw.brewingInProgress = true ∧ u6.hw.warmerStatus = POT_EMPTY ∧
      u6.hw.boilerStatus = BOILER_NOT_EMPTY ∧
      tickWithValve u6 0 VALVE_CLOSED = some u7 ∧
      u7.tasks = [{ pc := Pc.done, i := 5, warmerWrites := 1, boilerWrites := 1 }] ∧
      u7.hw.brewingInProgress = false ∧ u7.hw.warmerStatus = POT_NOT_EMPTY ∧
      u7.hw.boilerStatus = BOILER_EMPTY :=
  ⟨_, _, rfl, rfl, rfl, rfl, rfl, rfl, rfl, rfl, rfl, rfl⟩

theorem aborting_stepLocal (h : HardwareAPIImpl) (tks : List Ticker) (t : Task)
    (c : HardwareAPIImpl × List Ticker × Task) (hf : h.brewingInProgress = false)
    (hp : t.pc.beforeCheck = true) (hs : stepLocal h tks t = some c) :
    c.1.brewingInProgress = false ∧ c.1.warmerStatus = h.warmerStatus ∧
      c.1.boilerStatus = h.boilerStatus ∧ c.2.2.pc.beforeCheck = true ∧
      c.2.2.warmerWrites = t.warmerWrites ∧ c.2.2.boilerWrites = t.boilerWrites := by
  cases t with
  | mk pc i w b =>
      cases pc <;> simp [Pc.beforeCheck] at hp <;>
        simp only [stepLocal, isBrewingInProgress, setBrewingInProgress, hf] at hs
      · cases Option.some.inj hs
        simp [Pc.beforeCheck, hf]
      · simp at hs
        cases hs
        simp [Pc.beforeCheck, hf]
      · cases hb : h.brewingTicker <;> rw [hb] at hs <;> cases Option.some.inj hs <;>
          simp [Pc.beforeCheck, hf]
      · rename_i k
        cases hk : tks[k]? with
        | none => rw [hk] at hs; exact Option.noConfusion hs
        | some tk =>
            rw [hk] at hs
            cases hpd : tk.pending with
            | false => simp [hpd] at hs
            | true =>
                simp [hpd] at hs
                cases hs
                simp [Pc.beforeCheck, hf]
      · cases Option.some.inj hs
        simp [Pc.beforeCheck, hf]
      · simp at hs
        cases hs
        simp [Pc.beforeCheck, hf]
      · cases Option.some.inj hs
        simp [Pc.beforeCheck]
      · cases hb : h.brewingTicker <;> rw [hb] at hs <;> cases Option.some.inj hs <;>
          simp [Pc.beforeCheck, hf]
      · cases Option.some.inj hs
        simp [Pc.beforeCheck, hf]
      · exact Option.noConfusion hs
      · exact Option.noConfusion hs

theorem aborting_execEvent (u u' : Sys) (tid w b : Nat) (ws : WarmerStatus)
    (bs : BoilerStatus) (e : Event) (ha : Aborting u tid w b ws bs)
    (he : e = Event.step tid ∨ ∃ k, e = Event.tick k) (hx : execEvent u e = some u') :
    Aborting u' tid w b ws bs := by
  obtain ⟨hf, hws, hbs, t, ht, hp, hw, hb⟩ := ha
  rcases he with he | ⟨k, he⟩
  · subst he
    simp only [execEvent, stepTask] at hx
    by_cases hc : u.crashed = true
    · simp [hc] at hx
    · simp only [hc, ht] at hx
      cases hs : stepLocal u.hw u.tickers t with
      | none => simp [hs] at hx
      | some c =>
          simp [hs] at hx
          obtain ⟨h1, h2, h3, h4, h5, h6⟩ := aborting_stepLocal _ _ _ _ hf hp hs
          subst hx
          exact ⟨h1, by rw [h2, hws], by rw [h3, hbs], c.2.2,
            lookup_set_self _ _ _ _ ht, h4, by rw [h5, hw], by rw [h6, hb]⟩
  · subst he
    simp only [execEvent, fire] at hx
    by_cases hc : u.crashed = true
    · simp [hc] at hx
    · simp only [hc] at hx
      cases hk : u.tickers[k]? with
      | none => simp [hk] at hx
      | some tk =>
          cases hst : tk.stopped with
          | true => simp [hk, hst] at hx
          | false =>
              simp [hk, hst] at hx
              subst hx
              exact ⟨hf, hws, hbs, t, ht, hp, hw, hb⟩

theorem aborting_exec (es : List Event) (u u' : Sys) (tid w b : Nat) (ws : WarmerStatus)
    (bs : BoilerStatus) (ha : Aborting u tid w b ws bs) (ho : OnlyTask tid es)
    (hx : exec u es = some u') : Aborting u' tid w b ws bs := by
  induction es generalizing u with
  | nil =>
      simp only [exec] at hx
      cases Option.some.inj hx
      exact ha
  | cons e rest ih =>
      simp only [exec] at hx
      cases h1 : execEvent u e with
      | none => simp [h1] at hx
      | some v =>
          simp only [h1] at hx
          exact ih v (aborting_execEvent u v tid w b ws bs e ha
            (ho e (List.mem_cons_self _ _)) h1)
            (fun x hxm => ho x (List.mem_cons_of_mem _ hxm)) hx

theorem waiting_of_hw_eq (u : Sys) (h : HardwareAPIImpl) (tid k i w b : Nat)
    (hw : Waiting u tid k i w b) (hh : h.brewingTicker = u.hw.brewingTicker) :
    Waiting { hw := h, tickers := u.tickers, tasks := u.tasks } tid k i w b :=
  ⟨hw.task, hw.others, hw.ticker, by rw [hh]; exact hw.handle⟩

theorem stepTask_done (u : Sys) (tid : Nat) (t : Task) (ht : u.tasks[tid]? = some t)
    (hd : t.pc = Pc.done) : stepTask u tid = none := by
  unfold stepTask
  by_cases hc : u.crashed = true
  · simp [hc]
  · simp [hc, ht, stepLocal, hd]

/-- The undisturbed abort (no statement of another goroutine in between): let a
goroutine be blocked in the select of its cycle, waiting for its next tick, at
any loop position `i` (so also while it waits for the fifth tick), and let the
foreground caller issue `SetBoilerState(BOILER_OFF)` and no other command.  Then the next tick makes the goroutine leave the loop and
return; it executes neither line 111 nor line 112 (its history counters are
unchanged), and `warmerStatus` and `boilerStatus` are what they were before the
command; the flag is clear and the ticker handle is nil.  Moreover, after the
command, along every schedule made of statements of this goroutine and of timer
ticks only, in whatever order and number, the two status fields keep the
values they had before the command and the goroutine's history counters stay
unchanged. -/
theorem off_aborts_without_writes (u : Sys) (tid k i w b : Nat)
    (hw : Waiting u tid k i w b) :
    ∃ u', tickTask (SetBoilerState u BOILER_OFF) tid = some u' ∧
      u'.tasks[tid]? =
        some { pc := Pc.done, i := nextI u i, warmerWrites := w, boilerWrites := b } ∧
      stepTask u' tid = none ∧
      u'.hw.warmerStatus = u.hw.warmerStatus ∧ u'.hw.boilerStatus = u.hw.boilerStatus ∧
      u'.hw.brewingInProgress = false ∧ u'.hw.brewingTicker = none ∧
      ∀ (es : List Event) (v : Sys), OnlyTask tid es →
        exec (SetBoilerState u BOILER_OFF) es = some v →
        v.hw.warmerStatus = u.hw.warmerStatus ∧ v.hw.boilerStatus = u.hw.boilerStatus ∧
        ∃ t, v.tasks[tid]? = some t ∧ t.warmerWrites = w ∧ t.boilerWrites = b := by
  have hoff : SetBoilerState u BOILER_OFF =
      { hw := { u.hw with boilerState := BOILER_OFF, brewingInProgress := false }
        tickers := u.tickers
        tasks := u.tasks } := by
    unfold SetBoilerState
    cases hf : u.hw.brewingInProgress <;> simp [hf, setBrewingInProgress]
  have hw1 : Waiting (SetBoilerState u BOILER_OFF) tid k i w b := by
    rw [hoff]
    exact waiting_of_hw_eq u _ tid k i w b hw rfl
  have hres : afterTick (SetBoilerState u BOILER_OFF) tid k i w b =
      { hw := { u.hw with boilerState := BOILER_OFF, brewingInProgress := false,
                          brewingTicker := none }
        tickers := stopTickerAt u.tickers k
        tasks := u.tasks.set tid
          { pc := Pc.done, i := nextI u i, warmerWrites := w, boilerWrites := b } } := by
    rw [hoff]
    simp [afterTick, nextI]
  refine ⟨_, tickTask_waiting _ tid k i w b hw1, ?_, ?_, ?_, ?_, ?_, ?_, ?_⟩
  · rw [hres]
    exact lookup_set_self _ _ _ _ hw.task
  · rw [hres]
    exact stepTask_done _ tid _ (lookup_set_self _ _ _ _ hw.task) rfl
  · rw [hres]
  · rw [hres]
  · rw [hres]
  · rw [hres]
  · intro es v ho hx
    have ha : Aborting (SetBoilerState u BOILER_OFF) tid w b u.hw.warmerStatus
        u.hw.boilerStatus := by
      rw [hoff]
      exact ⟨rfl, rfl, rfl, _, hw.task, rfl, rfl, rfl⟩
    obtain ⟨_, h2, h3, t, h4, _, h6, h7⟩ := aborting_exec es _ v tid w b _ _ ha ho hx
    exact ⟨h2, h3, t, h4, h6, h7⟩

/-- The undisturbed abort at the wait for the fifth tick of a cycle started
after power-on, `FillWater` and `PutPot`. -/
theorem off_aborts_without_writes_witness :
    ticks 4 (settle (runCmds powerOn [Command.FillWater, Command.PutPot,
      Command.SetBoilerState BOILER_ON]) 0) 0 = some fifthTickWait ∧
    Waiting fifthTickWait 0 0 4 0 0 ∧
    ∃ u', tickTask (SetBoilerState fifthTickWait BOILER_OFF) 0 = some u' ∧
      u'.tasks[0]? = some { pc := Pc.done, i := 5, warmerWrites := 0, boilerWrites := 0 } ∧
      u'.hw.warmerStatus = POT_EMPTY ∧ u'.hw.boilerStatus = BOILER_NOT_EMPTY :=
  ⟨rfl, ⟨rfl, othersFine_append_last _ _ [] _ (by simp), rfl, rfl⟩,
    match off_aborts_without_writes fifthTickWait 0 0 4 0 0
      ⟨rfl, othersFine_append_last _ _ [] _ (by simp), rfl, rfl⟩ with
    | ⟨u', h1, h2, _, h4, h5, _, _, _⟩ => ⟨u', h1, h2, h4, h5⟩⟩

/-- C4 (the code at the failing input): from power-on, the schedule
`onOffOnSchedule`, that is `SetBoilerState(BOILER_ON)`, five statements of
goroutine 0 (it passes the guard, sets the flag, creates ticker 0, enters the
loop and blocks in the select), `SetBoilerState(BOILER_OFF)`,
`SetBoilerState(BOILER_ON)`, five statements of goroutine 1, with no timer tick
at all, is executable and ends in a state in
which two goroutines are inside a brew cycle, each blocked in the select of its
own loop: the `BOILER_OFF` command cleared the flag that guards the entry while
goroutine 0 was still in its loop, so goroutine 1 passed the guard of line 93. -/
theorem two_cycles_after_on_off_on :
    ∃ u : Sys,
      exec powerOn onOffOnSchedule = some u ∧
      Reachable u ∧
      u.tasks = [{ pc := Pc.recv 0, i := 0, warmerWrites := 0, boilerWrites := 0 },
                 { pc := Pc.recv 1, i := 0, warmerWrites := 0, boilerWrites := 0 }] ∧
      u.tickers = [newTickerValue, newTickerValue] ∧
      u.hw.brewingInProgress = true ∧
      activeCycles u = 2 :=
  ⟨_, rfl, ⟨onOffOnSchedule, rfl⟩, rfl, rfl, rfl, rfl⟩

theorem no_panic_of_not_crashed (s : Sys) (hc : s.crashed = false) :
    ∀ t ∈ s.tasks, t.pc ≠ Pc.panicked := by
  intro t ht hp
  have : s.crashed = true := (crashed_eq_true_iff s).2 ⟨t, ht, hp⟩
  rw [hc] at this
  exact Bool.noConfusion this

theorem not_crashed_append_done (h : HardwareAPIImpl) (tk : List Ticker) (l : List Task)
    (t : Task) (hl : ∀ x ∈ l, x.pc ≠ Pc.panicked) (ht : t.pc ≠ Pc.panicked) :
    Sys.crashed { hw := h, tickers := tk, tasks := l ++ [t] } = false := by
  cases hc : Sys.crashed { hw := h, tickers := tk, tasks := l ++ [t] } with
  | false => rfl
  | true =>
      obtain ⟨x, hx, hxp⟩ := (crashed_eq_true_iff _).1 hc
      simp only [List.mem_append, List.mem_singleton] at hx
      rcases hx with hx | hx
      · exact absurd hxp (hl x hx)
      · rw [hx] at hxp
        exact absurd hxp ht

/-- One `SetBoilerState(BOILER_ON)` while the flag is set. -/
theorem settle_rejected (s : Sys) (hc : s.crashed = false)
    (hf : s.hw.brewingInProgress = true) :
    settle (SetBoilerState s BOILER_ON) s.tasks.length =
      { hw := { s.hw with boilerState := BOILER_ON }
        tickers := s.tickers
        tasks := s.tasks ++ [rejectedTask] } := by
  have hS : SetBoilerState s BOILER_ON =
      { s with hw := { s.hw with boilerState := BOILER_ON }, tasks := s.tasks ++ [newTask] } := by
    simp [SetBoilerState]
  rw [hS, settle, runTask_eq_local 16 _ s.tasks.length newTask (by simp)
    (othersFine_launch s BOILER_ON (no_panic_of_not_crashed s hc))]
  simp only []
  rw [runLocal_rejected _ _ (by simpa using hf)]
  simp [set_length_append, rejectedTask]

/-- The guard read while the flag is set: in every (not crashed) state whose flag
`brewingInProgress` is set, `SetBoilerState(BOILER_ON)` followed at once by the
run of the goroutine it starts (before any other event) only records
`boilerState = BOILER_ON`: the goroutine returns at the guard of line 93
without a write (it ends as `rejectedTask`), the record is otherwise unchanged
(flag, ticker handle, `boilerStatus`, `warmerStatus` and all other fields), no
ticker is created or stopped, and every goroutine that existed before keeps its
program point and loop variable.  The same holds for every sequence of `n + 1`
such commands, which leaves `n + 1` returned goroutines behind and the number of
goroutines inside a brew cycle unchanged. -/
theorem on_while_brewing_is_noop (s : Sys) (hc : s.crashed = false)
    (hf : s.hw.brewingInProgress = true) :
    settle (SetBoilerState s BOILER_ON) s.tasks.length =
        { hw := { s.hw with boilerState := BOILER_ON }
          tickers := s.tickers
          tasks := s.tasks ++ [rejectedTask] } ∧
    ∀ n, repeatOn (n + 1) s =
        { hw := { s.hw with boilerState := BOILER_ON }
          tickers := s.tickers
          tasks := s.tasks ++ List.replicate (n + 1) rejectedTask } ∧
      activeCycles (repeatOn (n + 1) s) = activeCycles s := by
  have key : ∀ n (s : Sys), s.crashed = false → s.hw.brewingInProgress = true →
      repeatOn (n + 1) s =
        { hw := { s.hw with boilerState := BOILER_ON }
          tickers := s.tickers
          tasks := s.tasks ++ List.replicate (n + 1) rejectedTask } := by
    intro n
    induction n with
    | zero =>
        intro s hc hf
        simp [repeatOn, settle_rejected s hc hf]
    | succ m ih =>
        intro s hc hf
        rw [repeatOn, settle_rejected s hc hf]
        have h1 := ih
          { hw := { s.hw with boilerState := BOILER_ON }
            tickers := s.tickers
            tasks := s.tasks ++ [rejectedTask] }
          (not_crashed_append_done _ _ _ _ (no_panic_of_not_crashed s hc)
            (by simp [rejectedTask])) hf
        rw [h1]
        simp [List.replicate_succ]
  refine ⟨settle_rejected s hc hf, fun n => ⟨key n s hc hf, ?_⟩⟩
  rw [key n s hc hf]
  simp [activeCycles, List.filter_append, List.filter_replicate, rejectedTask, Pc.inCycle]

/-- The guard read while the flag is set, in the state with one running cycle
after power-on. -/
theorem on_while_brewing_is_noop_witness :
    (settle (SetBoilerState powerOn BOILER_ON) 0).crashed = false ∧
    (settle (SetBoilerState powerOn BOILER_ON) 0).hw.brewingInProgress = true ∧
    repeatOn 3 (settle (SetBoilerState powerOn BOILER_ON) 0) =
      { hw := (settle (SetBoilerState powerOn BOILER_ON) 0).hw
        tickers := [newTickerValue]
        tasks := [{ pc := Pc.recv 0, i := 0, warmerWrites := 0, boilerWrites := 0 },
          rejectedTask, rejectedTask, rejectedTask] } :=
  ⟨rfl, rfl,
    ((on_while_brewing_is_noop (settle (SetBoilerState powerOn BOILER_ON) 0) rfl rfl).2 2).1⟩

theorem stopTickerAt_lookup (tks : List Ticker) (k : Nat) (tk : Ticker)
    (h : tks[k]? = some tk) :
    (stopTickerAt tks k)[k]? = some { tk with stopped := true } := by
  unfold stopTickerAt
  rw [h]
  exact lookup_set_self _ _ _ _ h

/-- C7: for every record, `GetBrewButtonStatus()` returns the latch value held
before the call and leaves the record with `brewButtonStatus =
BREW_BUTTON_NOT_PUSHED` and every other field as it was (as a command it
touches neither the tickers nor the goroutines).  For every record whose flag
`brewingInProgress` is clear, after one `PressBrewButton()` the first
`GetBrewButtonStatus()` returns `BREW_BUTTON_PUSHED` and the second returns
`BREW_BUTTON_NOT_PUSHED`. -/
theorem brew_button_read_and_clear (s : Sys) :
    (GetBrewButtonStatus s.hw).1 = s.hw.brewButtonStatus ∧
    (GetBrewButtonStatus s.hw).2.brewButtonStatus = BREW_BUTTON_NOT_PUSHED ∧
    (GetBrewButtonStatus s.hw).2 =
      { s.hw with brewButtonStatus := BREW_BUTTON_NOT_PUSHED } ∧
    (applyCmd s Command.GetBrewButtonStatus).tickers = s.tickers ∧
    (applyCmd s Command.GetBrewButtonStatus).tasks = s.tasks ∧
    (applyCmd s Command.GetBrewButtonStatus).hw = (GetBrewButtonStatus s.hw).2 ∧
    (s.hw.brewingInProgress = false →
      (GetBrewButtonStatus (PressBrewButton s.hw)).1 = BREW_BUTTON_PUSHED ∧
      (GetBrewButtonStatus (GetBrewButtonStatus (PressBrewButton s.hw)).2).1 =
        BREW_BUTTON_NOT_PUSHED) := by
  refine ⟨rfl, rfl, rfl, rfl, rfl, rfl, ?_⟩
  intro hf
  simp [GetBrewButtonStatus, PressBrewButton, isBrewingInProgress, hf]

/-- C7 at power-on. -/
theorem brew_button_read_and_clear_witness :
    powerOn.hw.brewingInProgress = false ∧
      (GetBrewButtonStatus (PressBrewButton powerOn.hw)).1 = BREW_BUTTON_PUSHED ∧
      (GetBrewButtonStatus (GetBrewButtonStatus (PressBrewButton powerOn.hw)).2).1 =
        BREW_BUTTON_NOT_PUSHED :=
  ⟨rfl, (brew_button_read_and_clear powerOn).2.2.2.2.2.2 rfl⟩

/-- C8: for every state whose flag `brewingInProgress` is set, `PressBrewButton()`
changes nothing (record, tickers and goroutines are as before, so
`brewButtonStatus` is as before); for every state whose flag is clear it sets
`brewButtonStatus = BREW_BUTTON_PUSHED` and changes nothing else. -/
theorem press_brew_button_guarded (s : Sys) :
    (s.hw.brewingInProgress = true →
      PressBrewButton s.hw = s.hw ∧ applyCmd s Command.PressBrewButton = s) ∧
    (s.hw.brewingInProgress = false →
      PressBrewButton s.hw = { s.hw with brewButtonStatus := BREW_BUTTON_PUSHED } ∧
      applyCmd s Command.PressBrewButton =
        { s with hw := { s.hw with brewButtonStatus := BREW_BUTTON_PUSHED } }) := by
  constructor
  · intro hf
    have h1 : PressBrewButton s.hw = s.hw := by
      simp [PressBrewButton, isBrewingInProgress, hf]
    exact ⟨h1, by simp [applyCmd, h1]⟩
  · intro hf
    have h1 : PressBrewButton s.hw = { s.hw with brewButtonStatus := BREW_BUTTON_PUSHED } := by
      simp [PressBrewButton, isBrewingInProgress, hf]
    exact ⟨h1, by simp [applyCmd, h1]⟩

/-- C8 in a state with a running cycle and at power-on. -/
theorem press_brew_button_guarded_witness :
    (brewingExample.hw.brewingInProgress = true ∧
      applyCmd brewingExample Command.PressBrewButton = brewingExample) ∧
    (powerOn.hw.brewingInProgress = false ∧
      (PressBrewButton powerOn.hw).brewButtonStatus = BREW_BUTTON_PUSHED) :=
  ⟨⟨rfl, ((press_brew_button_guarded brewingExample).1 rfl).2⟩,
    ⟨rfl, congrArg HardwareAPIImpl.brewButtonStatus
      ((press_brew_button_guarded powerOn).2 rfl).1⟩⟩

/-- C9 (the code at the failing input): in `offThenOnSchedule` the command
`SetBoilerState(BOILER_OFF)` is issued while goroutine 0 is blocked in the select
of its running cycle, and `SetBoilerState(BOILER_ON)` follows before the next
tick.  The schedule is executable from power-on, and after that next tick
goroutine 0 has evaluated the loop condition and is still in its loop (at the
select, with `i = 2`): it has not seen the cleared flag, because goroutine 1 set
it again in line 97.  Continuing with `completionSchedule`, goroutine 0 runs to
the end of its cycle and executes the writes of lines 111 and 112:
`warmerStatus = POT_NOT_EMPTY` and `boilerStatus = BOILER_EMPTY`. -/
theorem off_then_on_does_not_abort :
    ∃ u1 u2 : Sys,
      exec powerOn offThenOnSchedule = some u1 ∧
      u1.tasks = [{ pc := Pc.selectEval, i := 2, warmerWrites := 0, boilerWrites := 0 },
                  { pc := Pc.newTicker, i := 0, warmerWrites := 0, boilerWrites := 0 }] ∧
      u1.hw.brewingInProgress = true ∧
      u1.hw.warmerStatus = POT_EMPTY ∧ u1.hw.boilerStatus = BOILER_NOT_EMPTY ∧
      exec u1 completionSchedule = some u2 ∧
      u2.tasks = [{ pc := Pc.done, i := 5, warmerWrites := 1, boilerWrites := 1 },
                  { pc := Pc.newTicker, i := 0, warmerWrites := 0, boilerWrites := 0 }] ∧
      u2.hw.warmerStatus = POT_NOT_EMPTY ∧ u2.hw.boilerStatus = BOILER_EMPTY :=
  ⟨_, _, rfl, rfl, rfl, rfl, rfl, rfl, rfl, rfl, rfl⟩

/-- C10: for every state (whatever the fields hold, flag set or clear, ticker
handle nil or not), `FillWater` sets `boilerStatus = BOILER_NOT_EMPTY`, `PutPot`
sets `warmerStatus = POT_EMPTY`, `RemovePot` sets `warmerStatus = WARMER_EMPTY`,
and `SetIndicatorState`, `SetReliefValveState`, `SetWarmerPlateState` store their
argument in `indicatorState`, `reliefValveState`, `warmerPlateState`; each of
them leaves the eight other fields of the record (among them
`brewingInProgress` and `brewingTicker`), the tickers and the goroutines
unchanged: the state after the command is the state before it with that one
field replaced. -/
theorem single_field_writes (s : Sys) (x : IndicatorState) (v : ReliefValveState)
    (w : WarmerPlateState) :
    applyCmd s Command.FillWater =
      { s with hw := { s.hw with boilerStatus := BOILER_NOT_EMPTY } } ∧
    applyCmd s Command.PutPot =
      { s with hw := { s.hw with warmerStatus := POT_EMPTY } } ∧
    applyCmd s Command.RemovePot =
      { s with hw := { s.hw with warmerStatus := WARMER_EMPTY } } ∧
    applyCmd s (Command.SetIndicatorState x) =
      { s with hw := { s.hw with indicatorState := x } } ∧
    applyCmd s (Command.SetReliefValveState v) =
      { s with hw := { s.hw with reliefValveState := v } } ∧
    applyCmd s (Command.SetWarmerPlateState w) =
      { s with hw := { s.hw with warmerPlateState := w } } ∧
    (FillWater s.hw).boilerStatus = BOILER_NOT_EMPTY ∧
    (PutPot s.hw).warmerStatus = POT_EMPTY ∧
    (RemovePot s.hw).warmerStatus = WARMER_EMPTY ∧
    (SetIndicatorState s.hw x).indicatorState = x ∧
    (SetReliefValveState s.hw v).reliefValveState = v ∧
    (SetWarmerPlateState s.hw w).warmerPlateState = w :=
  ⟨rfl, rfl, rfl, rfl, rfl, rfl, rfl, rfl, rfl, rfl, rfl, rfl⟩

/-- C11: `Reset` is idempotent: for every state `s` (ticker handle nil or not,
cycle running or not) `Reset (Reset s) = Reset s`.  It has no error outcome:
it is defined on every state, it neither creates nor crashes a goroutine (the
goroutines after it are those before it, so the process has crashed after it
only if it had before), and in every state of a live process the command can
be executed. -/
theorem reset_idempotent (s : Sys) :
    Reset (Reset s) = Reset s ∧
    (Reset s).tasks = s.tasks ∧
    (Reset s).crashed = s.crashed ∧
    (s.crashed = false → execEvent s (Event.call Command.Reset) = some (Reset s)) := by
  refine ⟨?_, rfl, rfl, ?_⟩
  · simp [Reset, setBrewingInProgress]
  · intro hc
    simp [execEvent, hc, applyCmd]

/-- C11 in a state with a running cycle and a live ticker. -/
theorem reset_idempotent_witness :
    brewingExample.crashed = false ∧
    execEvent brewingExample (Event.call Command.Reset) = some (Reset brewingExample) ∧
    Reset (Reset brewingExample) = Reset brewingExample :=
  ⟨rfl, (reset_idempotent brewingExample).2.2.2 rfl, (reset_idempotent brewingExample).1⟩

theorem stepLocal_sameUnwritten (h : HardwareAPIImpl) (tks : List Ticker) (t : Task)
    (c : HardwareAPIImpl × List Ticker × Task) (hs : stepLocal h tks t = some c) :
    SameUnwritten h c.1 := by
  cases t with
  | mk pc i w b =>
      cases pc <;> simp only [stepLocal, setBrewingInProgress] at hs
      all_goals (try split at hs)
      all_goals (try split at hs)
      all_goals first
        | exact Option.noConfusion hs
        | (cases Option.some.inj hs; exact ⟨rfl, rfl, rfl, rfl, rfl⟩)

theorem stepTask_sameUnwritten (s s' : Sys) (tid : Nat) (hs : stepTask s tid = some s') :
    SameUnwritten s.hw s'.hw := by
  unfold stepTask at hs
  split at hs
  · exact Option.noConfusion hs
  · split at hs
    · exact Option.noConfusion hs
    · split at hs
      · exact Option.noConfusion hs
      · rename_i h tk t' hl
        cases Option.some.inj hs
        exact stepLocal_sameUnwritten _ _ _ _ hl

theorem fire_hw (s s' : Sys) (k : Nat) (hs : fire s k = some s') :
    s'.hw = s.hw ∧ s'.tasks = s.tasks := by
  unfold fire at hs
  split at hs
  · exact Option.noConfusion hs
  · split at hs
    · split at hs
      · exact Option.noConfusion hs
      · cases Option.some.inj hs
        exact ⟨rfl, rfl⟩
    · exact Option.noConfusion hs

theorem sameUnwritten_refl (h : HardwareAPIImpl) : SameUnwritten h h :=
  ⟨rfl, rfl, rfl, rfl, rfl⟩

theorem sameUnwritten_trans (a b c : HardwareAPIImpl) (h1 : SameUnwritten a b)
    (h2 : SameUnwritten b c) : SameUnwritten a c :=
  ⟨h2.1.trans h1.1, h2.2.1.trans h1.2.1, h2.2.2.1.trans h1.2.2.1,
    h2.2.2.2.1.trans h1.2.2.2.1, h2.2.2.2.2.trans h1.2.2.2.2⟩

theorem exec_sameUnwritten (es : List Event) (s s' : Sys) (hn : NoCall es)
    (hx : exec s es = some s') : SameUnwritten s.hw s'.hw := by
  induction es generalizing s with
  | nil =>
      simp only [exec] at hx
      cases Option.some.inj hx
      exact sameUnwritten_refl _
  | cons e rest ih =>
      simp only [exec] at hx
      cases h1 : execEvent s e with
      | none => simp [h1] at hx
      | some v =>
          simp only [h1] at hx
          have hv : SameUnwritten s.hw v.hw := by
            cases e with
            | call c => exact absurd rfl (hn _ (List.mem_cons_self _ _) c)
            | step tid => exact stepTask_sameUnwritten s v tid h1
            | tick k =>
                rw [(fire_hw s v k h1).1]
                exact sameUnwritten_refl _
          exact sameUnwritten_trans _ _ _ hv
            (ih v (fun x hxm => hn x (List.mem_cons_of_mem _ hxm)) hx)

/-- C20: every statement of a brew-cycle goroutine, in every state, leaves
`boilerState`, `brewButtonStatus`, `warmerPlateState`, `reliefValveState` and
`indicatorState` unchanged (it can only write `brewingInProgress`, the ticker
handle, `warmerStatus` and `boilerStatus`); hence along every schedule without
a foreground command, whatever goroutines run and however their cycles end,
these five fields keep their values.  From every idle state with the valve
closed, whatever `boilerStatus` and `warmerStatus` are at entry (no water, no
pot), `SetBoilerState(BOILER_ON)` and five ticks run the cycle to completion,
and the record is then the record before the command with `boilerState =
BOILER_ON`, `warmerStatus = POT_NOT_EMPTY`, `boilerStatus = BOILER_EMPTY`, the
flag clear and the ticker handle nil: `boilerState` is still `BOILER_ON`. -/
theorem cycle_frame (s : Sys) :
    (∀ tid s', stepTask s tid = some s' → SameUnwritten s.hw s'.hw) ∧
    (∀ es s', NoCall es → exec s es = some s' → SameUnwritten s.hw s'.hw) ∧
    (Idle s → s.hw.reliefValveState = VALVE_CLOSED →
      ∃ u, ticks 5 (settle (SetBoilerState s BOILER_ON) s.tasks.length) s.tasks.length =
          some u ∧
        u.tasks[s.tasks.length]? =
          some { pc := Pc.done, i := 5, warmerWrites := 1, boilerWrites := 1 } ∧
        u.hw = { s.hw with boilerState := BOILER_ON, warmerStatus := POT_NOT_EMPTY,
                           boilerStatus := BOILER_EMPTY, brewingInProgress := false,
                           brewingTicker := none }) := by
  refine ⟨fun tid s' h => stepTask_sameUnwritten s s' tid h,
    fun es s' hn hx => exec_sameUnwritten es s s' hn hx, ?_⟩
  intro hidle hv
  have hs := idle_no_panic s hidle.2
  have hw := waiting_launch s hs hidle.1
  have hl := settle_launch s hs hidle.1
  have hv0 : (settle (SetBoilerState s BOILER_ON) s.tasks.length).hw.reliefValveState =
      VALVE_CLOSED := by rw [hl]; exact hv
  have hf0 : (settle (SetBoilerState s BOILER_ON) s.tasks.length).hw.brewingInProgress =
      true := by rw [hl]
  refine ⟨_, ticks_closed_complete _ _ _ 0 0 hw hv0 hf0, ?_, ?_⟩
  · simp [lookup_set_self _ _ _ _ hw.task]
  · rw [hl]

/-- C20 at power-on, where the boiler is empty and no pot is on the plate. -/
theorem cycle_frame_witness :
    Idle powerOn ∧ powerOn.hw.reliefValveState = VALVE_CLOSED ∧
    powerOn.hw.boilerStatus = BOILER_EMPTY ∧ powerOn.hw.warmerStatus = WARMER_EMPTY ∧
    (∃ u, ticks 5 (settle (SetBoilerState powerOn BOILER_ON) 0) 0 = some u ∧
      u.hw.boilerState = BOILER_ON ∧ u.hw.warmerStatus = POT_NOT_EMPTY) ∧
    (∃ s', stepTask (SetBoilerState powerOn BOILER_ON) 0 = some s' ∧
      SameUnwritten (SetBoilerState powerOn BOILER_ON).hw s'.hw) ∧
    (NoCall [Event.step 0, Event.step 0, Event.step 0] ∧
      ∃ s', exec (SetBoilerState powerOn BOILER_ON)
          [Event.step 0, Event.step 0, Event.step 0] = some s' ∧
        SameUnwritten (SetBoilerState powerOn BOILER_ON).hw s'.hw) :=
  ⟨⟨rfl, by decide⟩, rfl, rfl, rfl,
    match (cycle_frame powerOn).2.2 ⟨rfl, by decide⟩ rfl with
    | ⟨u, hu, _, hh⟩ => ⟨u, hu, by rw [hh], by rw [hh]⟩,
    ⟨_, rfl, (cycle_frame (SetBoilerState powerOn BOILER_ON)).1 0 _ rfl⟩,
    ⟨by intro e he c; simp at he; subst he; simp,
      _, rfl, (cycle_frame (SetBoilerState powerOn BOILER_ON)).2.1
        [Event.step 0, Event.step 0, Event.step 0] _
        (by intro e he c; simp at he; subst he; simp) rfl⟩⟩

theorem setBoilerState_latch (s : Sys) (b : BoilerState) :
    (SetBoilerState s b).hw.brewButtonStatus = s.hw.brewButtonStatus := by
  unfold SetBoilerState
  simp only []
  split
  · rfl
  · split <;> rfl

theorem applyCmd_latch (s : Sys) (c : Command) (hc : c ≠ Command.PressBrewButton)
    (hl : s.hw.brewButtonStatus = BREW_BUTTON_NOT_PUSHED) :
    (applyCmd s c).hw.brewButtonStatus = BREW_BUTTON_NOT_PUSHED := by
  cases c with
  | PressBrewButton => exact absurd rfl hc
  | SetBoilerState b =>
      simp only [applyCmd]
      rw [setBoilerState_latch]
      exact hl
  | Reset => rfl
  | GetBrewButtonStatus => rfl
  | GetBoilerStatus => exact hl
  | GetWarmerPlateStatus => exact hl
  | SetIndicatorState x => exact hl
  | SetReliefValveState v => exact hl
  | SetWarmerPlateState w => exact hl
  | FillWater => exact hl
  | PutPot => exact hl
  | RemovePot => exact hl
  | ShowState => exact hl

theorem execEvent_latch (s s' : Sys) (e : Event)
    (he : e ≠ Event.call Command.PressBrewButton) (hx : execEvent s e = some s')
    (hl : s.hw.brewButtonStatus = BREW_BUTTON_NOT_PUSHED) :
    s'.hw.brewButtonStatus = BREW_BUTTON_NOT_PUSHED := by
  cases e with
  | call c =>
      simp only [execEvent] at hx
      split at hx
      · exact Option.noConfusion hx
      · cases Option.some.inj hx
        exact applyCmd_latch s c (fun h => he (by rw [h])) hl
  | step tid =>
      rw [(stepTask_sameUnwritten s s' tid hx).2.1]
      exact hl
  | tick k =>
      rw [(fire_hw s s' k hx).1]
      exact hl

theorem exec_latch (es : List Event) (s s' : Sys) (hn : NoPress es)
    (hx : exec s es = some s') (hl : s.hw.brewButtonStatus = BREW_BUTTON_NOT_PUSHED) :
    s'.hw.brewButtonStatus = BREW_BUTTON_NOT_PUSHED := by
  induction es generalizing s with
  | nil =>
      simp only [exec] at hx
      cases Option.some.inj hx
      exact hl
  | cons e rest ih =>
      simp only [exec] at hx
      cases h1 : execEvent s e with
      | none => simp [h1] at hx
      | some v =>
          simp only [h1] at hx
          exact ih v (fun x hxm => hn x (List.mem_cons_of_mem _ hxm)) hx
            (execEvent_latch s v e (hn e (List.mem_cons_self _ _)) h1 hl)

theorem exec_latch_pushed (es : List Event) (s s' : Sys) (hx : exec s es = some s')
    (hl : s.hw.brewButtonStatus = BREW_BUTTON_NOT_PUSHED)
    (hp : s'.hw.brewButtonStatus = BREW_BUTTON_PUSHED) :
    ∃ pre post u, es = pre ++ Event.call Command.PressBrewButton :: post ∧
      exec s pre = some u ∧ u.hw.brewingInProgress = false := by
  induction es generalizing s with
  | nil =>
      simp only [exec] at hx
      cases Option.some.inj hx
      rw [hl] at hp
      exact BrewButtonStatus.noConfusion hp
  | cons e rest ih =>
      simp only [exec] at hx
      cases h1 : execEvent s e with
      | none => simp [h1] at hx
      | some v =>
          simp only [h1] at hx
          by_cases he : e = Event.call Command.PressBrewButton
          · cases hf : s.hw.brewingInProgress with
            | false => exact ⟨[], rest, s, by rw [he]; rfl, rfl, hf⟩
            | true =>
                have hv : v.hw.brewButtonStatus = BREW_BUTTON_NOT_PUSHED := by
                  subst he
                  simp only [execEvent] at h1
                  split at h1
                  · exact Option.noConfusion h1
                  · cases Option.some.inj h1
                    simp [applyCmd, PressBrewButton, isBrewingInProgress, hf, hl]
                obtain ⟨pre, post, u, h2, h3, h4⟩ := ih v hx hv
                exact ⟨e :: pre, post, u, by rw [h2]; rfl, by simp only [exec, h1]; exact h3, h4⟩
          · have hv := execEvent_latch s v e he h1 hl
            obtain ⟨pre, post, u, h2, h3, h4⟩ := ih v hx hv
            exact ⟨e :: pre, post, u, by rw [h2]; rfl, by simp only [exec, h1]; exact h3, h4⟩

/-- C17: in every state, every event other than the command `PressBrewButton`
(so `Reset`, the getters, every setter, `FillWater`, `PutPot`, `RemovePot`,
`ShowState`, every statement of a brew-cycle goroutine and every timer tick)
keeps `brewButtonStatus = BREW_BUTTON_NOT_PUSHED`; an event that turns the
latch from `BREW_BUTTON_NOT_PUSHED` to `BREW_BUTTON_PUSHED` is a
`PressBrewButton` issued while the flag `brewingInProgress` is clear.  After a
`GetBrewButtonStatus()` (whatever it returned, in particular `PUSHED`), along
every schedule without a `PressBrewButton`, a later `GetBrewButtonStatus()`
returns `BREW_BUTTON_NOT_PUSHED`; and along any schedule, if a later
`GetBrewButtonStatus()` returns `BREW_BUTTON_PUSHED`, then the schedule contains
a `PressBrewButton` issued in a state whose flag is clear (an accepted press). -/
theorem button_pushed_only_by_press (s : Sys) :
    (∀ e s', e ≠ Event.call Command.PressBrewButton → execEvent s e = some s' →
      s.hw.brewButtonStatus = BREW_BUTTON_NOT_PUSHED →
      s'.hw.brewButtonStatus = BREW_BUTTON_NOT_PUSHED) ∧
    (∀ e s', execEvent s e = some s' →
      s.hw.brewButtonStatus = BREW_BUTTON_NOT_PUSHED →
      s'.hw.brewButtonStatus = BREW_BUTTON_PUSHED →
      e = Event.call Command.PressBrewButton ∧ s.hw.brewingInProgress = false) ∧
    (∀ es s', NoPress es → exec (applyCmd s Command.GetBrewButtonStatus) es = some s' →
      (GetBrewButtonStatus s'.hw).1 = BREW_BUTTON_NOT_PUSHED) ∧
    (∀ es s', exec (applyCmd s Command.GetBrewButtonStatus) es = some s' →
      (GetBrewButtonStatus s'.hw).1 = BREW_BUTTON_PUSHED →
      ∃ pre post u, es = pre ++ Event.call Command.PressBrewButton :: post ∧
        exec (applyCmd s Command.GetBrewButtonStatus) pre = some u ∧
        u.hw.brewingInProgress = false) := by
  refine ⟨fun e s' he hx hl => execEvent_latch s s' e he hx hl, ?_, ?_,
    fun es s' hx hp => exec_latch_pushed es _ s' hx rfl hp⟩
  · intro e s' hx hl hp
    by_cases he : e = Event.call Command.PressBrewButton
    · refine ⟨he, ?_⟩
      subst he
      simp only [execEvent] at hx
      split at hx
      · exact Option.noConfusion hx
      · cases Option.some.inj hx
        cases hf : s.hw.brewingInProgress with
        | false => rfl
        | true =>
            simp [applyCmd, PressBrewButton, isBrewingInProgress, hf, hl] at hp
    · have := execEvent_latch s s' e he hx hl
      rw [this] at hp
      exact BrewButtonStatus.noConfusion hp
  · intro es s' hn hx
    exact exec_latch es _ s' hn hx rfl

/-- C17 after a press at power-on: the read returns `PUSHED`, and after two
statements of a goroutine and a `FillWater` the next read returns `NOT_PUSHED`. -/
theorem button_pushed_only_by_press_witness :
    (GetBrewButtonStatus (applyCmd powerOn Command.PressBrewButton).hw).1 =
      BREW_BUTTON_PUSHED ∧
    NoPress [Event.call (Command.SetBoilerState BOILER_ON), Event.step 0, Event.step 0,
      Event.call Command.FillWater] ∧
    (∃ s', exec (applyCmd (applyCmd powerOn Command.PressBrewButton)
          Command.GetBrewButtonStatus)
        [Event.call (Command.SetBoilerState BOILER_ON), Event.step 0, Event.step 0,
          Event.call Command.FillWater] = some s' ∧
      (GetBrewButtonStatus s'.hw).1 = BREW_BUTTON_NOT_PUSHED) ∧
    (∃ s', execEvent powerOn (Event.call Command.PressBrewButton) = some s' ∧
      powerOn.hw.brewButtonStatus = BREW_BUTTON_NOT_PUSHED ∧
      s'.hw.brewButtonStatus = BREW_BUTTON_PUSHED ∧ powerOn.hw.brewingInProgress = false) ∧
    (∃ s', execEvent powerOn (Event.call Command.PutPot) = some s' ∧
      s'.hw.brewButtonStatus = BREW_BUTTON_NOT_PUSHED) ∧
    (∃ s', exec (applyCmd powerOn Command.GetBrewButtonStatus)
        [Event.call Command.FillWater, Event.call Command.PressBrewButton] = some s' ∧
      (GetBrewButtonStatus s'.hw).1 = BREW_BUTTON_PUSHED ∧
      ∃ pre post u, [Event.call Command.FillWater, Event.call Command.PressBrewButton] =
          pre ++ Event.call Command.PressBrewButton :: post ∧
        exec (applyCmd powerOn Command.GetBrewButtonStatus) pre = some u ∧
        u.hw.brewingInProgress = false) :=
  ⟨rfl, by intro e he; simp at he; rcases he with h | h | h <;> subst h <;> simp,
    ⟨_, rfl, (button_pushed_only_by_press (applyCmd powerOn Command.PressBrewButton)).2.2.1
      [Event.call (Command.SetBoilerState BOILER_ON), Event.step 0, Event.step 0,
        Event.call Command.FillWater] _
      (by intro e he; simp at he; rcases he with h | h | h <;> subst h <;> simp) rfl⟩,
    ⟨_, rfl, rfl, rfl,
      ((button_pushed_only_by_press powerOn).2.1 (Event.call Command.PressBrewButton) _
        rfl rfl rfl).2⟩,
    ⟨_, rfl, (button_pushed_only_by_press powerOn).1 (Event.call Command.PutPot) _
      (by simp) rfl rfl⟩,
    ⟨_, rfl, rfl, (button_pushed_only_by_press powerOn).2.2.2
      [Event.call Command.FillWater, Event.call Command.PressBrewButton] _ rfl rfl⟩⟩

theorem waiting_set_i (u : Sys) (tid k i j w b : Nat) (hw : Waiting u tid k i w b) :
    Waiting
      { hw := u.hw
        tickers := u.tickers
        tasks := u.tasks.set tid
          { pc := Pc.recv k, i := j, warmerWrites := w, boilerWrites := b } } tid k j w b := by
  refine ⟨lookup_set_self _ _ _ _ hw.task, ?_, hw.ticker, hw.handle⟩
  intro x t hx ht
  simp only at ht
  rw [lookup_set_other _ _ _ _ hx] at ht
  exact hw.others x t hx ht

theorem stepTask_blocked (u : Sys) (tid k i w b : Nat) (hw : Waiting u tid k i w b) :
    stepTask u tid = none := by
  rw [stepTask_eq_local u tid _ hw.task hw.others]
  simp [stepLocal, hw.ticker]

/-- With the valve open and the flag set, every tick puts the loop variable
back to 1 and the goroutine stays in its loop. -/
theorem ticks_open (n : Nat) (u : Sys) (tid k i w b : Nat) (hw : Waiting u tid k i w b)
    (hv : u.hw.reliefValveState = VALVE_OPEN) (hf : u.hw.brewingInProgress = true) :
    ticks (n + 1) u tid = some
      { hw := u.hw
        tickers := u.tickers
        tasks := u.tasks.set tid
          { pc := Pc.recv k, i := 1, warmerWrites := w, boilerWrites := b } } := by
  induction n generalizing u i with
  | zero =>
      have hc : nextI u i < 5 ∧ u.hw.brewingInProgress = true := by
        rw [nextI_open u i hv]
        exact ⟨by decide, hf⟩
      simp only [ticks, tickTask_waiting u tid k i w b hw]
      unfold afterTick
      rw [if_pos hc, nextI_open u i hv]
  | succ m ih =>
      have hc : nextI u i < 5 ∧ u.hw.brewingInProgress = true := by
        rw [nextI_open u i hv]
        exact ⟨by decide, hf⟩
      have he : afterTick u tid k i w b =
          { hw := u.hw
            tickers := u.tickers
            tasks := u.tasks.set tid
              { pc := Pc.recv k, i := 1, warmerWrites := w, boilerWrites := b } } := by
        unfold afterTick
        rw [if_pos hc, nextI_open u i hv]
      rw [ticks, tickTask_waiting u tid k i w b hw]
      simp only []
      rw [he, ih _ 1 (waiting_set_i u tid k i 1 w b hw) hv hf]
      simp [set_set_same]

/-- C18: from every idle state with the relief valve open,
`SetBoilerState(BOILER_ON)` followed by any number `n` of ticks, with the valve
open at each of them and no `SetBoilerState(BOILER_OFF)`, leaves the goroutine
blocked in the select of its loop (with `i = 0` before the first tick and
`i = 1` after every tick): the flag `brewingInProgress` is still set, the
goroutine has executed neither line 111 nor line 112, and `warmerStatus` and
`boilerStatus` are what they were. -/
theorem open_valve_never_completes (s : Sys) (hidle : Idle s)
    (hv : s.hw.reliefValveState = VALVE_OPEN) (n : Nat) :
    ∃ u, ticks n (settle (SetBoilerState s BOILER_ON) s.tasks.length) s.tasks.length = some u ∧
      u.tasks[s.tasks.length]? =
        some { pc := Pc.recv s.tickers.length, i := min n 1, warmerWrites := 0,
               boilerWrites := 0 } ∧
      stepTask u s.tasks.length = none ∧
      u.hw.brewingInProgress = true ∧
      u.hw.warmerStatus = s.hw.warmerStatus ∧ u.hw.boilerStatus = s.hw.boilerStatus := by
  have hs := idle_no_panic s hidle.2
  have hw := waiting_launch s hs hidle.1
  have hl := settle_launch s hs hidle.1
  have hv0 : (settle (SetBoilerState s BOILER_ON) s.tasks.length).hw.reliefValveState =
      VALVE_OPEN := by rw [hl]; exact hv
  have hf0 : (settle (SetBoilerState s BOILER_ON) s.tasks.length).hw.brewingInProgress =
      true := by rw [hl]
  cases n with
  | zero =>
      refine ⟨_, rfl, hw.task, stepTask_blocked _ _ _ _ _ _ hw, hf0, ?_, ?_⟩
      · rw [hl]
      · rw [hl]
  | succ m =>
      refine ⟨_, ticks_open m _ _ _ 0 0 0 hw hv0 hf0, ?_, ?_, hf0, ?_, ?_⟩
      · simp [lookup_set_self _ _ _ _ hw.task]
      · exact stepTask_blocked _ _ _ _ _ _ (waiting_set_i _ _ _ 0 1 0 0 hw)
      · rw [hl]
      · rw [hl]

/-- C18 at power-on with the valve opened, for 1000 ticks. -/
theorem open_valve_never_completes_witness :
    Idle (applyCmd powerOn (Command.SetReliefValveState VALVE_OPEN)) ∧
    (applyCmd powerOn (Command.SetReliefValveState VALVE_OPEN)).hw.reliefValveState =
      VALVE_OPEN ∧
    ∃ u, ticks 1000
        (settle (SetBoilerState (applyCmd powerOn (Command.SetReliefValveState VALVE_OPEN))
          BOILER_ON) 0) 0 = some u ∧
      u.tasks[0]? = some { pc := Pc.recv 0, i := 1, warmerWrites := 0, boilerWrites := 0 } ∧
      u.hw.brewingInProgress = true :=
  ⟨⟨rfl, by decide⟩, rfl,
    match open_valve_never_completes
      (applyCmd powerOn (Command.SetReliefValveState VALVE_OPEN)) ⟨rfl, by decide⟩ rfl 1000 with
    | ⟨u, h1, h2, _, h4, _, _⟩ => ⟨u, h1, h2, h4⟩⟩

theorem runLocal_postCheck (h : HardwareAPIImpl) (tks : List Ticker) (k i w b : Nat)
    (hb : h.brewingTicker = some k) :
    runLocal 16 (h, tks, { pc := Pc.postCheck, i := i, warmerWrites := w, boilerWrites := b }) =
      if h.brewingInProgress = true then
        ({ h with warmerStatus := POT_NOT_EMPTY, boilerStatus := BOILER_EMPTY,
                  brewingInProgress := false, brewingTicker := none },
          stopTickerAt tks k,
          { pc := Pc.done, i := i, warmerWrites := w + 1, boilerWrites := b + 1 })
      else
        ({ h with brewingInProgress := false, brewingTicker := none },
          stopTickerAt tks k,
          { pc := Pc.done, i := i, warmerWrites := w, boilerWrites := b }) := by
  by_cases hf : h.brewingInProgress = true
  all_goals simp [runLocal, stepLocal, hf, hb, isBrewingInProgress, setBrewingInProgress]

/-- The undisturbed cleanup (nothing else runs in between): a goroutine that has
left its loop and stands before line 110, in a state whose ticker handle
points to a ticker, runs to its end with the same cleanup
whether the flag is still set (COMPLETED, it then executes lines 111
and 112 once) or has been cleared (ABORTED, no write): it returns, the flag
`brewingInProgress` is clear, the ticker is stopped and the handle is nil.  In
particular this is the state after the tick at which a waiting goroutine
leaves its loop, be it because the loop variable reaches 5 with the flag set
or because the flag was cleared by `SetBoilerState(BOILER_OFF)`. -/
theorem cleanup_on_every_exit :
    (∀ (u : Sys) (tid k i w b : Nat) (tk : Ticker),
      u.tasks[tid]? =
        some { pc := Pc.postCheck, i := i, warmerWrites := w, boilerWrites := b } →
      OthersFine u tid → u.hw.brewingTicker = some k → u.tickers[k]? = some tk →
      (∃ t, (settle u tid).tasks[tid]? = some t ∧ t.pc = Pc.done ∧
        t.warmerWrites = (if u.hw.brewingInProgress = true then w + 1 else w) ∧
        t.boilerWrites = (if u.hw.brewingInProgress = true then b + 1 else b)) ∧
      (settle u tid).hw.brewingInProgress = false ∧
      (settle u tid).hw.brewingTicker = none ∧
      (settle u tid).tickers[k]? = some { tk with stopped := true }) ∧
    (∀ (u : Sys) (tid k i w b : Nat), Waiting u tid k i w b →
      ¬ (nextI u i < 5 ∧ u.hw.brewingInProgress = true) →
      ∃ u', tickTask u tid = some u' ∧
        (∃ t, u'.tasks[tid]? = some t ∧ t.pc = Pc.done ∧
          t.warmerWrites = (if u.hw.brewingInProgress = true then w + 1 else w) ∧
          t.boilerWrites = (if u.hw.brewingInProgress = true then b + 1 else b)) ∧
        u'.hw.brewingInProgress = false ∧ u'.hw.brewingTicker = none ∧
        u'.tickers[k]? = some { stopped := true, pending := false }) := by
  constructor
  · intro u tid k i w b tk ht ho hb hk
    rw [settle, runTask_eq_local 16 u tid _ ht ho, runLocal_postCheck u.hw u.tickers k i w b hb]
    by_cases hf : u.hw.brewingInProgress = true
    · simp only [hf, if_true]
      refine ⟨⟨_, lookup_set_self _ _ _ _ ht, ?_⟩, ?_, ?_, stopTickerAt_lookup _ _ _ hk⟩ <;>
        trivial
    · simp only [hf, if_false]
      refine ⟨⟨_, lookup_set_self _ _ _ _ ht, ?_⟩, ?_, ?_, stopTickerAt_lookup _ _ _ hk⟩ <;>
        trivial
  · intro u tid k i w b hw hexit
    refine ⟨_, tickTask_waiting u tid k i w b hw, ?_⟩
    unfold afterTick
    rw [if_neg hexit]
    by_cases hf : u.hw.brewingInProgress = true
    · simp only [hf, if_true]
      refine ⟨⟨_, lookup_set_self _ _ _ _ hw.task, ?_⟩, ?_, ?_,
        stopTickerAt_lookup _ _ _ hw.ticker⟩ <;> trivial
    · simp only [hf, if_false]
      refine ⟨⟨_, lookup_set_self _ _ _ _ hw.task, ?_⟩, ?_, ?_,
        stopTickerAt_lookup _ _ _ hw.ticker⟩ <;> trivial

/-- The undisturbed cleanup at the fifth tick of a cycle started at power-on
(COMPLETED), at the same tick after `SetBoilerState(BOILER_OFF)` (ABORTED), and right after the
loop exit. -/
theorem cleanup_on_every_exit_witness :
    exec fifthTickWait [Event.tick 0, Event.step 0, Event.step 0, Event.step 0] =
      some leftLoopExample ∧
    ((settle leftLoopExample 0).hw.brewingInProgress = false ∧
      (settle leftLoopExample 0).hw.brewingTicker = none ∧
      (settle leftLoopExample 0).tickers[0]? = some { stopped := true, pending := false }) ∧
    (Waiting fifthTickWait 0 0 4 0 0 ∧
      ∃ u', tickTask fifthTickWait 0 = some u' ∧ u'.hw.brewingInProgress = false ∧
        u'.hw.brewingTicker = none ∧ u'.hw.warmerStatus = POT_NOT_EMPTY) ∧
    (Waiting (SetBoilerState fifthTickWait BOILER_OFF) 0 0 4 0 0 ∧
      ∃ u', tickTask (SetBoilerState fifthTickWait BOILER_OFF) 0 = some u' ∧
        u'.hw.brewingInProgress = false ∧ u'.hw.brewingTicker = none ∧
        u'.hw.warmerStatus = POT_EMPTY) :=
  ⟨rfl,
    (cleanup_on_every_exit.1 leftLoopExample 0 0 5 0 0 newTickerValue rfl
      (othersFine_append_last _ _ [] _ (by simp)) rfl rfl).2,
    ⟨⟨rfl, othersFine_append_last _ _ [] _ (by simp), rfl, rfl⟩,
      match cleanup_on_every_exit.2 fifthTickWait 0 0 4 0 0
        ⟨rfl, othersFine_append_last _ _ [] _ (by simp), rfl, rfl⟩ (by decide) with
      | ⟨u', h1, _, h3, h4, _⟩ =>
          ⟨u', h1, h3, h4, by
            have h := Option.some.inj h1
            rw [← h]
            rfl⟩⟩,
    ⟨⟨rfl, othersFine_append_last _ _ [] _ (by simp), rfl, rfl⟩,
      match cleanup_on_every_exit.2 (SetBoilerState fifthTickWait BOILER_OFF) 0 0 4 0 0
        ⟨rfl, othersFine_append_last _ _ [] _ (by simp), rfl, rfl⟩ (by decide) with
      | ⟨u', h1, _, h3, h4, _⟩ =>
          ⟨u', h1, h3, h4, by
            have h := Option.some.inj h1
            rw [← h]
            rfl⟩⟩⟩

/-- C14 (the code at the failing input): `resetAfterWakeSchedule` is executable
from power-on.  In it `Reset()` comes after goroutine 0 has received a tick and
before it re-checks the loop condition; `Reset` sets the ticker handle to nil
(line 55), the goroutine then leaves its loop, and its cleanup dereferences the
nil handle in line 116, `h.brewingTicker.Stop()`: the goroutine panics and the
process has crashed.  With `resetWhileWaitingSchedule`, where `Reset()` comes
while the goroutine is blocked in the select, the goroutine stays blocked on
the channel of the stopped ticker: it cannot execute a statement and the ticker
cannot send a tick, so it does not exit at all. -/
theorem reset_during_cycle_crashes_or_blocks :
    (∃ u : Sys,
      exec powerOn resetAfterWakeSchedule = some u ∧
      u.tasks = [{ pc := Pc.panicked, i := 1, warmerWrites := 0, boilerWrites := 0 }] ∧
      u.hw.brewingTicker = none ∧ u.crashed = true) ∧
    (∃ u : Sys,
      exec powerOn resetWhileWaitingSchedule = some u ∧
      u.tasks = [{ pc := Pc.recv 0, i := 0, warmerWrites := 0, boilerWrites := 0 }] ∧
      u.tickers = [{ stopped := true, pending := false }] ∧
      u.hw.brewingTicker = none ∧
      stepTask u 0 = none ∧ fire u 0 = none) :=
  ⟨⟨_, rfl, rfl, rfl, rfl⟩, ⟨_, rfl, rfl, rfl, rfl, rfl, rfl⟩⟩

/-- C15 (the code at the failing input): `doubleEntrySchedule` is executable from
power-on.  In it two `SetBoilerState(BOILER_ON)` commands are issued while no
cycle is active, and the two goroutines interleave as read (line 93 of
goroutine 0), read (line 93 of goroutine 1), write (line 97 of goroutine 0),
write (line 97 of goroutine 1): both reads see the flag clear, because the
mutex protects the read and the write separately.  Both goroutines then enter
the brew loop and each allocates a ticker; at the end two goroutines are inside
a brew cycle and two tickers exist. -/
theorem both_goroutines_pass_the_guard :
    ∃ u : Sys,
      exec powerOn doubleEntrySchedule = some u ∧
      u.tasks = [{ pc := Pc.recv 0, i := 0, warmerWrites := 0, boilerWrites := 0 },
                 { pc := Pc.recv 1, i := 0, warmerWrites := 0, boilerWrites := 0 }] ∧
      u.tickers = [newTickerValue, newTickerValue] ∧
      u.hw.brewingInProgress = true ∧
      activeCycles u = 2 :=
  ⟨_, rfl, rfl, rfl, rfl, rfl⟩

theorem bump_le (v : ReliefValveState) (i : Nat) : bump v i ≤ i + 1 := by
  unfold bump
  split <;> omega

theorem bump_closed (i : Nat) : bump VALVE_CLOSED i = i + 1 := by
  simp [bump]

theorem bump_open (i : Nat) : bump VALVE_OPEN i = 1 := by
  simp [bump]

theorem counterFrom_cons (i : Nat) (v : ReliefValveState) (vs : List ReliefValveState) :
    counterFrom i (v :: vs) = counterFrom (bump v i) vs := rfl

theorem counterFrom_append (i : Nat) (a b : List ReliefValveState) :
    counterFrom i (a ++ b) = counterFrom (counterFrom i a) b := by
  simp [counterFrom, List.foldl_append]

theorem counterFrom_closed (i : Nat) (vs : List ReliefValveState)
    (h : ∀ v ∈ vs, v = VALVE_CLOSED) : counterFrom i vs = i + vs.length := by
  induction vs generalizing i with
  | nil => rfl
  | cons v rest ih =>
      have hv : v = VALVE_CLOSED := h v (List.mem_cons_self _ _)
      subst hv
      rw [counterFrom_cons, bump_closed, ih _ (fun x hx => h x (List.mem_cons_of_mem _ hx))]
      simp only [List.length_cons]
      omega

theorem counterFrom_last_open (i : Nat) (pre post : List ReliefValveState)
    (h : ∀ v ∈ post, v = VALVE_CLOSED) :
    counterFrom i (pre ++ VALVE_OPEN :: post) = 1 + post.length := by
  rw [counterFrom_append, counterFrom_cons, bump_open, counterFrom_closed 1 post h]

theorem staysInLoop_tail (i : Nat) (v : ReliefValveState) (rest : List ReliefValveState)
    (hs : staysInLoop i (v :: rest) = true) : staysInLoop (bump v i) rest = true := by
  cases rest with
  | nil => rfl
  | cons w ws =>
      simp only [staysInLoop, Bool.and_eq_true] at hs
      exact hs.2

theorem staysInLoop_last (i : Nat) (v : ReliefValveState) (rest : List ReliefValveState)
    (hs : staysInLoop i (v :: rest) = true) (hb : ¬ bump v i < 5) : rest = [] := by
  cases rest with
  | nil => rfl
  | cons w ws =>
      simp only [staysInLoop, Bool.and_eq_true, decide_eq_true_eq] at hs
      exact absurd hs.1 hb

theorem staysInLoop_closed (m i : Nat) (h : i + m ≤ 5) :
    staysInLoop i (List.replicate m VALVE_CLOSED) = true := by
  induction m generalizing i with
  | zero => rfl
  | succ n ih =>
      cases n with
      | zero => rfl
      | succ k =>
          have h1 : List.replicate (k + 1 + 1) VALVE_CLOSED =
              VALVE_CLOSED :: VALVE_CLOSED :: List.replicate k VALVE_CLOSED := rfl
          rw [h1]
          simp only [staysInLoop, Bool.and_eq_true, decide_eq_true_eq, bump_closed]
          refine ⟨by omega, ?_⟩
          have := ih (i + 1) (by omega)
          rw [List.replicate_succ] at this
          exact this

theorem runValves_append (u : Sys) (tid : Nat) (a b : List ReliefValveState) :
    runValves u tid (a ++ b) = (runValves u tid a).bind fun v => runValves v tid b := by
  induction a generalizing u with
  | nil => rfl
  | cons v rest ih =>
      simp only [List.cons_append, runValves]
      cases h : tickWithValve u tid v with
      | none => rfl
      | some u1 => exact ih u1

theorem nextI_setValve (u : Sys) (v : ReliefValveState) (i : Nat) :
    nextI (applyCmd u (Command.SetReliefValveState v)) i =
      bump v i := rfl

/-- The run of a waiting goroutine along a valve trace, in terms of
`counterFrom`: while the loop variable stays below 5 the goroutine waits in its
loop with that loop variable; when it reaches 5 the cycle is completed. -/
theorem runValves_waiting (vs : List ReliefValveState) (u : Sys) (tid k i w b : Nat)
    (hw : Waiting u tid k i w b) (hf : u.hw.brewingInProgress = true) (hi : i < 5)
    (hs : staysInLoop i vs = true) :
    ∃ u', runValves u tid vs = some u' ∧ counterFrom i vs ≤ 5 ∧
      (counterFrom i vs < 5 →
        Waiting u' tid k (counterFrom i vs) w b ∧ u'.hw.brewingInProgress = true ∧
        u'.hw.warmerStatus = u.hw.warmerStatus ∧ u'.hw.boilerStatus = u.hw.boilerStatus) ∧
      (counterFrom i vs = 5 →
        u'.tasks[tid]? =
          some { pc := Pc.done, i := 5, warmerWrites := w + 1, boilerWrites := b + 1 } ∧
        u'.hw.brewingInProgress = false ∧ u'.hw.brewingTicker = none ∧
        u'.hw.warmerStatus = POT_NOT_EMPTY ∧ u'.hw.boilerStatus = BOILER_EMPTY) := by
  induction vs generalizing u i with
  | nil =>
      refine ⟨u, rfl, Nat.le_of_lt hi, fun _ => ⟨hw, hf, rfl, rfl⟩, fun h5 => ?_⟩
      simp only [counterFrom, List.foldl_nil] at h5
      omega
  | cons v rest ih =>
      have hw1 : Waiting (applyCmd u (Command.SetReliefValveState v)) tid k i w b :=
        waiting_of_hw_eq u _ tid k i w b hw rfl
      have ht : tickWithValve u tid v = some (afterTick
          (applyCmd u (Command.SetReliefValveState v))
          tid k i w b) := by
        unfold tickWithValve
        exact tickTask_waiting _ tid k i w b hw1
      have hble := bump_le v i
      by_cases hb : bump v i < 5
      · have hc : nextI (applyCmd u (Command.SetReliefValveState v)) i < 5 ∧
            (applyCmd u (Command.SetReliefValveState v)).hw.brewingInProgress = true := ⟨hb, hf⟩
        have hw2 := waiting_afterTick _ tid k i w b hw1 hc
        have he : afterTick
            (applyCmd u (Command.SetReliefValveState v))
            tid k i w b =
            { hw := SetReliefValveState u.hw v
              tickers := u.tickers
              tasks := u.tasks.set tid
                { pc := Pc.recv k, i := bump v i, warmerWrites := w, boilerWrites := b } } := by
          unfold afterTick
          rw [if_pos hc]
          rfl
        rw [nextI_setValve] at hw2
        obtain ⟨u', h1, h2, h3, h4⟩ := ih _ (bump v i) hw2 (by rw [he]; exact hf) hb
          (staysInLoop_tail i v rest hs)
        refine ⟨u', ?_, ?_, ?_, ?_⟩
        · simp only [runValves, ht]
          exact h1
        · rw [counterFrom_cons]
          exact h2
        · intro hlt
          rw [counterFrom_cons] at hlt ⊢
          obtain ⟨a1, a2, a3, a4⟩ := h3 hlt
          refine ⟨a1, a2, ?_, ?_⟩
          · rw [a3, he]
            rfl
          · rw [a4, he]
            rfl
        · intro h5
          rw [counterFrom_cons] at h5
          exact h4 h5
      · have hrest : rest = [] := staysInLoop_last i v rest hs hb
        subst hrest
        have hb5 : bump v i = 5 := by omega
        have hc : ¬ (nextI (applyCmd u (Command.SetReliefValveState v)) i < 5 ∧
            (applyCmd u (Command.SetReliefValveState v)).hw.brewingInProgress = true) := fun h => hb h.1
        have hf1 : (applyCmd u (Command.SetReliefValveState v)).hw.brewingInProgress = true := hf
        refine ⟨afterTick (applyCmd u (Command.SetReliefValveState v)) tid k i w b,
          by simp only [runValves, ht], ?_, ?_, ?_⟩
        · rw [counterFrom_cons]
          simp only [counterFrom, List.foldl_nil]
          omega
        · intro hlt
          rw [counterFrom_cons] at hlt
          simp only [counterFrom, List.foldl_nil] at hlt
          omega
        · intro _
          unfold afterTick
          rw [if_neg hc, if_pos hf1, nextI_setValve, hb5]
          exact ⟨lookup_set_self _ _ _ _ hw.task, rfl, rfl, rfl, rfl⟩

/-- C19: start a cycle in an idle state and let it run along a valve trace `vs`
(one valve state per tick, flag never cleared) that does not end the loop
before its last tick.  Then the loop variable tested by line 100 after the last
tick is `counterFrom 0 vs`; it equals the number of ticks when the valve was
closed at all of them, and `1 + (t - k)` when `t` is the number of ticks and `k`
the last tick with the valve open (the reset to 0 is followed by `i++`).  It is
at most 5.  While it is below 5 the goroutine waits in its loop without a
write, and from there `5 - i` further ticks with the valve closed complete the
cycle, so the loop ends on every trace with finitely many open ticks.  When it
is 5 the cycle is completed (both writes done once), and the trace then has
exactly 5 ticks if the valve was never open, and otherwise exactly 4 ticks
after the last open one. -/
theorem loop_counter_closed_form (s : Sys) (hidle : Idle s) (vs : List ReliefValveState)
    (hrun : staysInLoop 0 vs = true) :
    ∃ u t,
      runValves (settle (SetBoilerState s BOILER_ON) s.tasks.length) s.tasks.length vs =
        some u ∧
      u.tasks[s.tasks.length]? = some t ∧
      t.i = counterFrom 0 vs ∧
      ((∀ v ∈ vs, v = VALVE_CLOSED) → t.i = vs.length) ∧
      (∀ pre post, vs = pre ++ VALVE_OPEN :: post → (∀ v ∈ post, v = VALVE_CLOSED) →
        t.i = 1 + (vs.length - (pre.length + 1))) ∧
      t.i ≤ 5 ∧
      (t.i < 5 →
        t.pc = Pc.recv s.tickers.length ∧ t.warmerWrites = 0 ∧ t.boilerWrites = 0 ∧
        u.hw.brewingInProgress = true ∧
        ∃ u' t', runValves (settle (SetBoilerState s BOILER_ON) s.tasks.length) s.tasks.length
            (vs ++ List.replicate (5 - t.i) VALVE_CLOSED) = some u' ∧
          u'.tasks[s.tasks.length]? = some t' ∧ t'.pc = Pc.done ∧ t'.warmerWrites = 1) ∧
      (t.i = 5 →
        t.pc = Pc.done ∧ t.warmerWrites = 1 ∧ t.boilerWrites = 1 ∧
        u.hw.warmerStatus = POT_NOT_EMPTY ∧ u.hw.boilerStatus = BOILER_EMPTY ∧
        ((∀ v ∈ vs, v = VALVE_CLOSED) → vs.length = 5) ∧
        (∀ pre post, vs = pre ++ VALVE_OPEN :: post → (∀ v ∈ post, v = VALVE_CLOSED) →
          vs.length = pre.length + 1 + 4)) := by
  have hs := idle_no_panic s hidle.2
  have hw := waiting_launch s hs hidle.1
  have hl := settle_launch s hs hidle.1
  have hf0 : (settle (SetBoilerState s BOILER_ON) s.tasks.length).hw.brewingInProgress =
      true := by rw [hl]
  obtain ⟨u, h1, h2, h3, h4⟩ :=
    runValves_waiting vs _ s.tasks.length s.tickers.length 0 0 0 hw hf0 (by decide) hrun
  have hclosed : (∀ v ∈ vs, v = VALVE_CLOSED) → counterFrom 0 vs = vs.length := by
    intro hc
    rw [counterFrom_closed 0 vs hc]
    omega
  have hopen : ∀ pre post, vs = pre ++ VALVE_OPEN :: post →
      (∀ v ∈ post, v = VALVE_CLOSED) →
      counterFrom 0 vs = 1 + (vs.length - (pre.length + 1)) := by
    intro pre post he hc
    rw [he, counterFrom_last_open 0 pre post hc]
    simp only [List.length_append, List.length_cons]
    omega
  by_cases hlt : counterFrom 0 vs < 5
  · obtain ⟨a1, a2, _, _⟩ := h3 hlt
    refine ⟨u, _, h1, a1.task, rfl, hclosed, hopen, h2, ?_, ?_⟩
    · intro _
      refine ⟨rfl, rfl, rfl, a2, ?_⟩
      have hrep : ∀ v ∈ List.replicate (5 - counterFrom 0 vs) VALVE_CLOSED,
          v = VALVE_CLOSED := fun v hv => List.eq_of_mem_replicate hv
      obtain ⟨u', b1, _, _, b4⟩ :=
        runValves_waiting (List.replicate (5 - counterFrom 0 vs) VALVE_CLOSED) u
          s.tasks.length s.tickers.length (counterFrom 0 vs) 0 0 a1 a2 hlt
          (staysInLoop_closed _ _ (by omega))
      have h5 : counterFrom (counterFrom 0 vs)
          (List.replicate (5 - counterFrom 0 vs) VALVE_CLOSED) = 5 := by
        rw [counterFrom_closed _ _ hrep, List.length_replicate]
        omega
      refine ⟨u', _, ?_, (b4 h5).1, rfl, rfl⟩
      rw [runValves_append, h1]
      exact b1
    · intro h5
      simp only at h5
      omega
  · have h5 : counterFrom 0 vs = 5 := by omega
    obtain ⟨a1, _, _, a4, a5⟩ := h4 h5
    refine ⟨u, _, h1, a1, h5.symm, ?_, ?_, Nat.le_refl 5, ?_, ?_⟩
    · intro hc
      rw [← hclosed hc, h5]
    · intro pre post he hc
      rw [← hopen pre post he hc, h5]
    · intro hcon
      simp only at hcon
      omega
    · intro _
      refine ⟨rfl, rfl, rfl, a4, a5, ?_, ?_⟩
      · intro hc
        rw [← hclosed hc, h5]
      · intro pre post he hc
        have := hopen pre post he hc
        rw [h5] at this
        rw [he] at this ⊢
        simp only [List.length_append, List.length_cons] at this ⊢
        omega

/-- C19 at power-on with the valve open at tick 3 only: the loop variable after
tick 7 is 5, the cycle is completed, and 7 is 4 ticks after tick 3. -/
theorem loop_counter_closed_form_witness :
    Idle powerOn ∧
    staysInLoop 0 [VALVE_CLOSED, VALVE_CLOSED, VALVE_OPEN, VALVE_CLOSED, VALVE_CLOSED,
      VALVE_CLOSED, VALVE_CLOSED] = true ∧
    ∃ u t,
      runValves (settle (SetBoilerState powerOn BOILER_ON) 0) 0
        [VALVE_CLOSED, VALVE_CLOSED, VALVE_OPEN, VALVE_CLOSED, VALVE_CLOSED,
          VALVE_CLOSED, VALVE_CLOSED] = some u ∧
      u.tasks[0]? = some t ∧ t.i = 5 ∧ t.pc = Pc.done ∧
      u.hw.warmerStatus = POT_NOT_EMPTY :=
  ⟨⟨rfl, by decide⟩, rfl,
    match loop_counter_closed_form powerOn ⟨rfl, by decide⟩
      [VALVE_CLOSED, VALVE_CLOSED, VALVE_OPEN, VALVE_CLOSED, VALVE_CLOSED,
        VALVE_CLOSED, VALVE_CLOSED] rfl with
    | ⟨u, t, h1, h2, h3, _, _, _, _, h8⟩ =>
        ⟨u, t, h1, h2, h3, (h8 h3).1, (h8 h3).2.2.2.1⟩⟩

/-- C3 (the code at the failing input): `runningWithPendingOnSchedule` leads from
power-on to a state with a running cycle (goroutine 0 blocked in its select, the
flag set, `warmerStatus = POT_EMPTY`, `boilerStatus = BOILER_NOT_EMPTY`) and a
goroutine started by a second `SetBoilerState(BOILER_ON)` that has not run yet.
`SetBoilerState(BOILER_OFF)` is issued there, before the first tick, and no
command follows.  Along `abortRaceSchedule`, after its first five events
goroutine 0 has left its loop at line 100 on the cleared flag (it stands before
line 110 with `i = 1`) while goroutine 1 has passed line 93; goroutine 1 then
sets the flag in line 97, the check of line 110 reads it set, and the aborted
cycle executes lines 111 and 112: `warmerStatus = POT_NOT_EMPTY` and
`boilerStatus = BOILER_EMPTY`. -/
theorem aborted_cycle_writes_when_flag_is_set_again :
    ∃ u0 u1 u2 : Sys,
      exec powerOn runningWithPendingOnSchedule = some u0 ∧
      u0.tasks = [{ pc := Pc.recv 0, i := 0, warmerWrites := 0, boilerWrites := 0 }, newTask] ∧
      u0.hw.brewingInProgress = true ∧
      u0.hw.warmerStatus = POT_EMPTY ∧ u0.hw.boilerStatus = BOILER_NOT_EMPTY ∧
      exec (SetBoilerState u0 BOILER_OFF) (abortRaceSchedule.take 5) = some u1 ∧
      u1.tasks = [{ pc := Pc.postCheck, i := 1, warmerWrites := 0, boilerWrites := 0 },
                  { pc := Pc.setFlag, i := 0, warmerWrites := 0, boilerWrites := 0 }] ∧
      u1.hw.brewingInProgress = false ∧
      exec (SetBoilerState u0 BOILER_OFF) abortRaceSchedule = some u2 ∧
      u2.tasks = [{ pc := Pc.done, i := 1, warmerWrites := 1, boilerWrites := 1 },
                  { pc := Pc.newTicker, i := 0, warmerWrites := 0, boilerWrites := 0 }] ∧
      u2.hw.warmerStatus = POT_NOT_EMPTY ∧ u2.hw.boilerStatus = BOILER_EMPTY :=
  ⟨_, _, _, rfl, rfl, rfl, rfl, rfl, rfl, rfl, rfl, rfl, rfl, rfl, rfl⟩

/-- C5 (the code at the failing input): `brewingExample` is reached from power-on
by `twoTicksSchedule`; a cycle is running there and the flag is set.  With
`onThenOffSchedule`, `SetBoilerState(BOILER_ON)` is followed by
`SetBoilerState(BOILER_OFF)` before the started goroutine has run: the goroutine
then reads the flag clear in line 93, sets it, creates a second ticker and
enters its loop, so two goroutines are inside a brew cycle and the record's
ticker handle has been replaced.  In `fifthTickWait` (a running cycle waiting
for its fifth tick) with `onBeforeLastTickSchedule`, where
`SetBoilerState(BOILER_ON)` is the only command, the running cycle completes
before the started goroutine executes line 93, and that goroutine starts a new
cycle with a new ticker and the flag set again. -/
theorem on_while_brewing_starts_a_cycle :
    exec powerOn twoTicksSchedule = some brewingExample ∧
    brewingExample.hw.brewingInProgress = true ∧
    (∃ u : Sys, exec brewingExample onThenOffSchedule = some u ∧
      u.tasks = [{ pc := Pc.recv 0, i := 2, warmerWrites := 0, boilerWrites := 0 },
                 { pc := Pc.recv 1, i := 0, warmerWrites := 0, boilerWrites := 0 }] ∧
      u.tickers = [newTickerValue, newTickerValue] ∧
      u.hw.brewingTicker = some 1 ∧ u.hw.brewingInProgress = true ∧
      activeCycles u = 2) ∧
    fifthTickWait.hw.brewingInProgress = true ∧
    (∃ u : Sys, exec fifthTickWait onBeforeLastTickSchedule = some u ∧
      u.tasks = [{ pc := Pc.done, i := 5, warmerWrites := 1, boilerWrites := 1 },
                 { pc := Pc.recv 1, i := 0, warmerWrites := 0, boilerWrites := 0 }] ∧
      u.tickers = [{ stopped := true, pending := false }, newTickerValue] ∧
      u.hw.brewingTicker = some 1 ∧ u.hw.brewingInProgress = true) :=
  ⟨rfl, rfl, ⟨_, rfl, rfl, rfl, rfl, rfl, rfl⟩, rfl, ⟨_, rfl, rfl, rfl, rfl, rfl⟩⟩

/-- C13 (the code at the failing input): `twoCyclesOffSchedule`, which contains no
`Reset`, leads from power-on to a state with two goroutines blocked in their
loops (goroutine 0 on ticker 0, goroutine 1 on ticker 1, the record's handle
pointing to ticker 1) and the flag cleared by `SetBoilerState(BOILER_OFF)`.
With `firstCycleExitSchedule` goroutine 0 leaves its loop as aborted and runs
its cleanup to the end: line 116 stops ticker 1, the ticker of the other
goroutine, and goroutine 0's own ticker 0 is still running after it has
returned (it can still send a tick).  With `secondCycleExitSchedule` goroutine
1 then leaves its loop as aborted too, finds the handle nil in line 116 and
panics.  With `onDuringCleanupSchedule`, in a single completed cycle, a
`SetBoilerState(BOILER_ON)` between lines 115 and 116 lets a new goroutine set
the flag, so the flag is set in the state after the cycle's goroutine has
returned. -/
theorem cleanup_breaks_with_a_second_goroutine :
    (∃ u v w : Sys,
      exec powerOn twoCyclesOffSchedule = some u ∧
      u.tasks = [{ pc := Pc.recv 0, i := 0, warmerWrites := 0, boilerWrites := 0 },
                 { pc := Pc.recv 1, i := 0, warmerWrites := 0, boilerWrites := 0 }] ∧
      u.hw.brewingInProgress = false ∧ u.hw.brewingTicker = some 1 ∧
      exec u firstCycleExitSchedule = some v ∧
      v.tasks = [{ pc := Pc.done, i := 1, warmerWrites := 0, boilerWrites := 0 },
                 { pc := Pc.recv 1, i := 0, warmerWrites := 0, boilerWrites := 0 }] ∧
      v.tickers = [{ stopped := false, pending := false },
                   { stopped := true, pending := false }] ∧
      v.hw.brewingTicker = none ∧
      (fire v 0).isSome = true ∧
      exec u secondCycleExitSchedule = some w ∧
      w.tasks = [{ pc := Pc.done, i := 1, warmerWrites := 0, boilerWrites := 0 },
                 { pc := Pc.panicked, i := 1, warmerWrites := 0, boilerWrites := 0 }] ∧
      w.crashed = true) ∧
    (∃ u : Sys,
      exec fifthTickWait onDuringCleanupSchedule = some u ∧
      u.tasks = [{ pc := Pc.done, i := 5, warmerWrites := 1, boilerWrites := 1 },
                 { pc := Pc.newTicker, i := 0, warmerWrites := 0, boilerWrites := 0 }] ∧
      u.hw.brewingInProgress = true ∧ u.hw.brewingTicker = none) :=
  ⟨⟨_, _, _, rfl, rfl, rfl, rfl, rfl, rfl, rfl, rfl, rfl, rfl, rfl, rfl⟩,
    ⟨_, rfl, rfl, rfl, rfl⟩⟩

end CoffeeMaker
